import Mathlib

set_option linter.unusedVariables false

/-!
Verification of the SAC-format low-level array codec
(`obspy/io/sac/arrayio.py`) against its specification.

The development shallowly embeds the module's functions:

* pure header machinery (`init_header_arrays`, the dictionary converters,
  `validate_sac_content`, `is_valid_byteorder`, ASCII reading/writing) is
  embedded at value level: float header entries and data samples are exact
  rationals (IEEE float32 quantization is not modelled; every operation the
  claims exercise is equality / comparison / copying, which is
  quantization-transparent for the concrete values used), int header entries
  are integers that are wrapped to the int32 range when stored, and the
  8-byte string slots are Lean strings;
* the binary reader `read_sac` is embedded at byte level: a stream is a list
  of bytes with a read position, header words are kept as raw 4-byte groups
  plus a byte-order tag, mirroring how numpy keeps the bytes and a dtype
  byte order, so that "reinterpret the same bytes under the swapped order"
  is expressible;
* external collaborators that live outside the translated module (the header
  schema tables `HD.*`, `is_valid_enum_int`, the `UTCDateTime` constructor)
  are modelled from the specification; each such definition is marked
  `Modelled from the spec:` in its doc comment.

Python exceptions become an error type `PyErr`; exception messages are kept
except that apostrophes and brace characters are dropped from the text.
-/

/-- Python exception kinds raised by the module: `ValueError`
(InvalidArgument), `SacIOError` (FormatError), `SacInvalidContentError`
(ContentError), plus `NameError`/`IndexError` for runtime slips the source
can hit. -/
inductive PyErr where
  | valueError (msg : String)
  | sacIOError (msg : String)
  | sacInvalidContentError (msg : String)
  | nameError (msg : String)
  | indexError (msg : String)
  deriving DecidableEq, Repr

/-- Python `l[i]`: the element, or an `IndexError` when out of range
(negative indices are never used by this module). -/
def pyGet {α : Type} (l : List α) (i : ℕ) : Except PyErr α :=
  match l.get? i with
  | some a => .ok a
  | none => .error (.indexError "index out of range")

/-- Group a list into consecutive chunks of `n` (fuel-structural so that the
kernel can evaluate it). -/
def chunksGo {α : Type} (fuel : ℕ) (n : ℕ) (l : List α) : List (List α) :=
  match fuel, l with
  | 0, _ => []
  | _, [] => []
  | fuel + 1, l => l.take n :: chunksGo fuel n (l.drop n)

/-- `chunksOf n l` splits `l` into consecutive chunks of `n` elements
(the last chunk may be shorter); `n = 0` gives `[]`. -/
def chunksOf {α : Type} (n : ℕ) (l : List α) : List (List α) :=
  if n = 0 then [] else chunksGo l.length n l

/-- Wrap an integer into the signed 32-bit range, as numpy does when a value
is stored into an `i4` header array. -/
def wrap32 (z : ℤ) : ℤ :=
  (z + 2 ^ 31) % 2 ^ 32 - 2 ^ 31

/-- Truncation toward zero, the C-style cast numpy applies when a float is
assigned into an int array (the source additionally emits a non-fatal
warning, which is not modelled). -/
def ratTrunc (q : ℚ) : ℤ :=
  q.num / (q.den : ℤ)

/-- `s[0:n]` on a Python string (clamping, n from the left). -/
def strTake (s : String) (n : ℕ) : String :=
  ⟨s.data.take n⟩

/-- `s[a:b]` on a Python string for `0 ≤ a ≤ b`. -/
def strSlice (s : String) (a b : ℕ) : String :=
  ⟨(s.data.take b).drop a⟩

/-- Python `"\x7b:<ns\x7d".format(s)`: left-justify, pad with spaces to
width `n`. -/
def padRightTo (s : String) (n : ℕ) : String :=
  ⟨s.data ++ List.replicate (n - s.data.length) ' '⟩

/-- `s.startswith("l")` for the single-character prefix used by the source. -/
def startsWithL (s : String) : Bool :=
  s.data.head? = some 'l'

/-- Modelled from the spec: the external header-schema collaborator's ordered
field-name list for the float header (70 single-precision fields; §3, §6 of
the spec). Only the positions the source mentions by name (delta 0, depmin 1,
depmax 2, b 5, o 7, a 8, t0..t9 10..19, depmen 56) are load-bearing. -/
def FLOATHDRS : List String :=
  ["delta", "depmin", "depmax", "scale", "odelta", "b", "e", "o", "a",
   "internal0", "t0", "t1", "t2", "t3", "t4", "t5", "t6", "t7", "t8", "t9",
   "f", "resp0", "resp1", "resp2", "resp3", "resp4", "resp5", "resp6",
   "resp7", "resp8", "resp9", "stla", "stlo", "stel", "stdp", "evla",
   "evlo", "evel", "evdp", "mag", "user0", "user1", "user2", "user3",
   "user4", "user5", "user6", "user7", "user8", "user9", "dist", "az",
   "baz", "gcarc", "internal1", "internal2", "depmen", "cmpaz", "cmpinc",
   "xminimum", "xmaximum", "yminimum", "ymaximum", "unused6", "unused7",
   "unused8", "unused9", "unused10", "unused11", "unused12"]

/-- Modelled from the spec: the schema's ordered int-header field names
(40 signed 32-bit fields). Load-bearing positions: nvhdr 6, npts 9
(the source also hard-codes `hi[9]`), iztype 17, and the four logical
(boolean-flag) fields leven/lpspol/lovrok/lcalda, the only names beginning
with the letter l. -/
def INTHDRS : List String :=
  ["nzyear", "nzjday", "nzhour", "nzmin", "nzsec", "nzmsec", "nvhdr",
   "norid", "nevid", "npts", "internal4", "nwfid", "nxsize", "nysize",
   "unused15", "iftype", "idep", "iztype", "unused16", "iinst",
   "istreg", "ievreg", "ievtyp", "iqual", "isynth", "imagtyp",
   "imagsrc", "unused19", "unused20", "unused21", "unused22",
   "unused23", "unused24", "unused25", "leven", "lpspol", "lovrok",
   "lcalda", "unused26", "unused27"]

/-- Modelled from the spec: the schema's ordered string-header field names
(24 eight-byte slots); the event name spans the two consecutive slots
kevnm (1) and kevnm2 (2), matching the source's hard-coded `hs[1]`/`hs[2]`. -/
def STRHDRS : List String :=
  ["kstnm", "kevnm", "kevnm2", "khole", "ko", "ka", "kt0", "kt1", "kt2",
   "kt3", "kt4", "kt5", "kt6", "kt7", "kt8", "kt9", "kf", "kuser0",
   "kuser1", "kuser2", "kcmpnm", "knetwk", "kdatrd", "kinst"]

/-- Modelled from the spec: the float-header null sentinel (-12345.0). -/
def FNULL : ℚ := -12345

/-- Modelled from the spec: the int-header null sentinel (-12345). -/
def INULL : ℤ := -12345

/-- Modelled from the spec: the string-header null sentinel, the 8-byte
string "-12345" padded with two spaces. -/
def SNULL : String := "-12345  "

/-- Modelled from the spec: accepted enumeration codes for the
reference-time-type field iztype, per the reltime validation rule (§4.5):
the selector codes 9 (begin), 11 (origin), 12 (arrival) and 13..22
(user-defined pick times it0..it9). -/
def IZTYPE_ACCEPTED : List ℤ :=
  [9, 11, 12, 13, 14, 15, 16, 17, 18, 19, 20, 21, 22]

/-- Modelled from the spec: the schema collaborator's enum-accepted-values
lookup (§6); only the iztype entry is exercised by the translated claims. -/
def ACCEPTED_VALS : List (String × List ℤ) :=
  [("iztype", IZTYPE_ACCEPTED)]

/-- Modelled from the spec: the schema collaborator's membership test for
enumerated fields, optionally allowing the null sentinel (§6). -/
def is_valid_enum_int (hdr : String) (val : ℤ) (allow_null : Bool) : Bool :=
  match ACCEPTED_VALS.lookup hdr with
  | some vals => vals.contains val || (allow_null && val == INULL)
  | none => false

/-- One header array as handed out by `init_header_arrays`: a float, int or
string header, float/int arrays carrying their dtype byte-order character. -/
inductive HdrArray where
  | flt (byteorder : String) (vals : List ℚ)
  | int (byteorder : String) (vals : List ℤ)
  | str (vals : List String)
  deriving DecidableEq, Repr

/-- The fresh null float header: 70 null sentinels. -/
def initFloatVals : List ℚ :=
  List.replicate 70 FNULL

/-- The fresh int header exactly as the source builds it: fill the 40 slots
with the null sentinel, then zero every field whose name starts with l, then
set lcalda to 1. -/
def initIntVals : List ℤ :=
  let hi := List.replicate 40 INULL
  let hi := (List.range 40).foldl
    (fun acc i =>
      if startsWithL (INTHDRS.getD i "") then acc.set i 0 else acc) hi
  hi.set (INTHDRS.indexOf "lcalda") 1

/-- The fresh null string header: 24 null sentinels. -/
def initStrVals : List String :=
  List.replicate 24 SNULL

/-- `init_header_arrays(arrays, byteorder)`: one freshly built array per
requested kind, in request order; an unrecognized kind raises ValueError.
`initStep` is the per-kind loop body of `init_header_arrays`. -/
def initStep (byteorder : String) (out : List HdrArray) (itype : String) :
    Except PyErr (List HdrArray) :=
  if itype = "float" then
    .ok (out ++ [HdrArray.flt byteorder initFloatVals])
  else if itype = "int" then
    .ok (out ++ [HdrArray.int byteorder initIntVals])
  else if itype = "str" then
    .ok (out ++ [HdrArray.str initStrVals])
  else
    .error (.valueError ("Unrecognized header array type " ++ itype))

def init_header_arrays (arrays : List String)
    (byteorder : String) : Except PyErr (List HdrArray) :=
  arrays.foldlM (initStep byteorder) []

/-- A value held in the header dictionary: a float, int or (decoded) string
header value. -/
inductive HVal where
  | f (q : ℚ)
  | i (z : ℤ)
  | s (v : String)
  deriving DecidableEq, Repr

/-- The header dictionary: an insertion-ordered association list with the
distinct keys of a Python dict. -/
abbrev HDict := List (String × HVal)

/-- Coerce a dictionary value into a float header slot (Python float(...)
semantics for the types that occur; a string raises ValueError). -/
def asFloatVal : HVal → Except PyErr ℚ
  | .f q => .ok q
  | .i z => .ok (z : ℚ)
  | .s _ => .error (.valueError "could not convert string to float")

/-- Coerce a dictionary value into an int32 header slot: ints wrap to the
int32 range, floats are truncated toward zero first (the source warns about
the truncation, non-fatally), strings raise ValueError. -/
def asIntVal : HVal → Except PyErr ℤ
  | .i z => .ok (wrap32 z)
  | .f q => .ok (wrap32 (ratTrunc q))
  | .s _ => .error (.valueError "invalid literal for int")

/-- Coerce a dictionary value into an 8-byte string slot: numpy S8 silently
truncates to the first 8 bytes; non-strings raise. -/
def asStrVal : HVal → Except PyErr String
  | .s t => .ok (strTake t 8)
  | _ => .error (.valueError "a bytes-like object is required")

/-- One `header.items()` step of `dict_to_header_arrays`: locate the key in
the float, int or string schema (in that order) and assign positionally; the
event name kevnm is split into two left-justified 8-character halves stored
in slots 1 and 2; an unknown key raises ValueError. -/
def assignEntry (hfis : List ℚ × List ℤ × List String) (kv : String × HVal) :
    Except PyErr (List ℚ × List ℤ × List String) :=
  let (hf, hi, hs) := hfis
  let (hdr, value) := kv
  if hdr ∈ FLOATHDRS then
    (asFloatVal value).map (fun q => (hf.set (FLOATHDRS.indexOf hdr) q, hi, hs))
  else if hdr ∈ INTHDRS then
    (asIntVal value).map (fun z => (hf, hi.set (INTHDRS.indexOf hdr) z, hs))
  else if hdr ∈ STRHDRS then
    if hdr = "kevnm" then
      (asStrVal value).map (fun _ =>
        match value with
        | .s t =>
          let kevnm := padRightTo (strTake t 8) 8
          let kevnm2 := padRightTo (strSlice t 8 16) 8
          (hf, hi, (hs.set 1 kevnm).set 2 kevnm2)
        | _ => (hf, hi, hs))
    else
      (asStrVal value).map (fun t => (hf, hi, hs.set (STRHDRS.indexOf hdr) t))
  else
    .error (.valueError ("Unrecognized header name: " ++ hdr ++ "."))

/-- `dict_to_header_arrays(header, byteorder)`: allocate null arrays via the
factory defaults and assign each dictionary entry into its schema slot. -/
def dict_to_header_arrays (header : Option HDict) (byteorder : String) :
    Except PyErr (List ℚ × List ℤ × List String) :=
  let init := (initFloatVals, initIntVals, initStrVals)
  match header with
  | none => .ok init
  | some m => m.foldlM assignEntry init

/-- The post-processing step of `header_arrays_to_dict`: if the secondary
event-name key kevnm2 is present it is appended onto kevnm (or renamed to
kevnm when kevnm itself is absent) and removed, so the two name slots
collapse into one key. -/
def mergeKevnm (d : HDict) : HDict :=
  match d.lookup "kevnm2" with
  | none => d
  | some v2 =>
    match d.lookup "kevnm" with
    | some v1 =>
      (d.map (fun p =>
        if p.1 = "kevnm" then
          ("kevnm", match v1, v2 with
                    | .s a, .s b => HVal.s ⟨a.data ++ b.data⟩
                    | _, _ => v1)
        else p)).filter (fun p => p.1 ≠ "kevnm2")
    | none =>
      (d.filter (fun p => p.1 ≠ "kevnm2")) ++ [("kevnm", v2)]

/-- `header_arrays_to_dict(hf, hi, hs, nulls)`: zip each array with its
schema names, keep an entry when `nulls` is true or the value is not the
array kind's null sentinel, then merge the two event-name slots. -/
def header_arrays_to_dict (hf : List ℚ) (hi : List ℤ) (hs : List String)
    (nulls : Bool) : HDict :=
  let items :=
    if nulls then
      (FLOATHDRS.zip hf).map (fun p => (p.1, HVal.f p.2)) ++
      (INTHDRS.zip hi).map (fun p => (p.1, HVal.i p.2)) ++
      (STRHDRS.zip hs).map (fun p => (p.1, HVal.s p.2))
    else
      ((FLOATHDRS.zip hf).filter (fun p => p.2 ≠ FNULL)).map
        (fun p => (p.1, HVal.f p.2)) ++
      ((INTHDRS.zip hi).filter (fun p => p.2 ≠ INULL)).map
        (fun p => (p.1, HVal.i p.2)) ++
      ((STRHDRS.zip hs).filter (fun p => p.2 ≠ SNULL)).map
        (fun p => (p.1, HVal.s p.2))
  mergeKevnm items

/-- `dict_to_header_arrays` followed by `header_arrays_to_dict` with
`nulls=False`: the round trip the algebraic claims quantify over. -/
def roundTripDict (m : HDict) : Except PyErr HDict :=
  (dict_to_header_arrays (some m) "=").map
    (fun t => header_arrays_to_dict t.1 t.2.1 t.2.2 false)

/-- Smallest element of a nonempty list of rationals (`data.min()`). -/
def listMin (d : List ℚ) : ℚ :=
  match d with
  | [] => 0
  | x :: xs => xs.foldl min x

/-- Largest element of a nonempty list of rationals (`data.max()`). -/
def listMax (d : List ℚ) : ℚ :=
  match d with
  | [] => 0
  | x :: xs => xs.foldl max x

/-- Mean of a list of rationals (`data.mean()`, idealized to exact
arithmetic). -/
def listMean (d : List ℚ) : ℚ :=
  d.sum / (d.length : ℚ)

/-- The delta test: the sample interval must not be negative. -/
def deltaCheck (hf : List ℚ) : Except PyErr Unit := do
  let dval ← pyGet hf (FLOATHDRS.indexOf "delta")
  if ¬ (dval ≥ 0) then
    .error (.sacInvalidContentError "Header delta must be >= 0.")
  else .ok ()

/-- The logicals test: each boolean-flag field is 0, 1 or null. -/
def logicalsCheck (hi : List ℤ) : Except PyErr Unit :=
  ["leven", "lpspol", "lovrok", "lcalda"].foldlM
    (fun _ hdr => do
      let lval ← pyGet hi (INTHDRS.indexOf hdr)
      if lval ∉ ([0, 1, INULL] : List ℤ) then
        .error (.sacInvalidContentError
          ("Header " ++ hdr ++ " must be 0, 1, or " ++ toString INULL ++ "."))
      else .ok ()) ()

/-- The message produced when the data_hdrs test cannot run. -/
def dataHdrsNoneMsg : String :=
  "Data array is None, empty array, or non-array. Cannot check data headers."

/-- The data_hdrs test: depmin/depmax/depmen must equal the data min, max
and mean.  The source wraps the comparisons in try/except: `data.min()` on
None raises AttributeError and on an empty array ValueError, both converted
into a ValueError (the header access `hf[...]` happens first and an
out-of-range access would escape the except clause); a mismatch raises
SacInvalidContentError, which the except clause does not catch. -/
def dataHdrsCheck (hf : List ℚ) (data : Option (List ℚ)) :
    Except PyErr Unit := do
  match data with
  | none =>
    let _ ← pyGet hf (FLOATHDRS.indexOf "depmin")
    .error (.valueError dataHdrsNoneMsg)
  | some d =>
    if d = [] then do
      let _ ← pyGet hf (FLOATHDRS.indexOf "depmin")
      .error (.valueError dataHdrsNoneMsg)
    else do
      let isMIN ← (pyGet hf (FLOATHDRS.indexOf "depmin")).map
        (fun x => decide (x = listMin d))
      let isMAX ← (pyGet hf (FLOATHDRS.indexOf "depmax")).map
        (fun x => decide (x = listMax d))
      let isMEN ← (pyGet hf (FLOATHDRS.indexOf "depmen")).map
        (fun x => decide (x = listMean d))
      if ¬ ([isMIN, isMAX, isMEN].all id) then
        .error (.sacInvalidContentError "Data headers do not match data array.")
      else .ok ()

/-- The enums test: every field of the accepted-values table must hold an
accepted code or null. -/
def enumsCheck (hi : List ℤ) : Except PyErr Unit :=
  (ACCEPTED_VALS.map Prod.fst).foldlM
    (fun _ hdr => do
      let enval ← pyGet hi (INTHDRS.indexOf hdr)
      if ¬ is_valid_enum_int hdr enval true then
        .error (.sacInvalidContentError
          ("Invalid enumerated value, " ++ hdr ++ ": " ++ toString enval))
      else .ok ()) ()

/-- Modelled from the spec: the timestamp collaborator's constructor, which
fails unless (year, day-of-year, hour, minute, second, microsecond) form a
constructible calendar timestamp (§6). -/
def utcConstructible (year jday hour minute second microsecond : ℤ) : Bool :=
  let leap := (year % 4 == 0 && year % 100 != 0) || year % 400 == 0
  (1 ≤ year && year ≤ 9999) &&
  (1 ≤ jday && jday ≤ (if leap then 366 else 365)) &&
  (0 ≤ hour && hour < 24) && (0 ≤ minute && minute < 60) &&
  (0 ≤ second && second < 60) && (0 ≤ microsecond && microsecond < 1000000)

/-- The reftime test: the six reference-time fields are all non-null and
form a constructible timestamp (the source passes nzmsec as the microsecond
argument). -/
def reftimeCheck (hi : List ℤ) : Except PyErr Unit := do
  let nzyear ← pyGet hi (INTHDRS.indexOf "nzyear")
  let nzjday ← pyGet hi (INTHDRS.indexOf "nzjday")
  let nzhour ← pyGet hi (INTHDRS.indexOf "nzhour")
  let nzmin ← pyGet hi (INTHDRS.indexOf "nzmin")
  let nzsec ← pyGet hi (INTHDRS.indexOf "nzsec")
  let nzmsec ← pyGet hi (INTHDRS.indexOf "nzmsec")
  if ¬ ([nzyear, nzjday, nzhour, nzmin, nzsec, nzmsec].all (· ≠ INULL)) then
    .error (.sacInvalidContentError "Null reference time values detected.")
  else if ¬ utcConstructible nzyear nzjday nzhour nzmin nzsec nzmsec then
    .error (.sacInvalidContentError "Invalid reference time")
  else .ok ()

/-- The reltime test, translated bug-for-bug from the source: for a valid
iztype the selector chain is `if iztype_val == 9: hdr = 'b'` /
`elif iztype_val == 11: hdr = 'o'` / `elif val == 12: ...` /
`elif val in range(13, 23): ...` — the last two branches read `val`, a name
that is never bound in the function, so under Python 3 any valid code other
than 9 or 11 raises NameError.  For codes 9 and 11 the null check then reads
`hi[HD.FLOATHDRS.index(hdr)]`: the INT array at the FLOAT-schema index of
b (5) or o (7), compared against the int null sentinel. -/
def reltimeCheck (hi : List ℤ) : Except PyErr Unit := do
  let iztype_val ← pyGet hi (INTHDRS.indexOf "iztype")
  if is_valid_enum_int "iztype" iztype_val false then
    if iztype_val = 9 then do
      let v ← pyGet hi (FLOATHDRS.indexOf "b")
      if v = INULL then
        .error (.sacInvalidContentError
          ("Reference header b for iztype " ++ toString iztype_val ++
            " not set."))
      else .ok ()
    else if iztype_val = 11 then do
      let v ← pyGet hi (FLOATHDRS.indexOf "o")
      if v = INULL then
        .error (.sacInvalidContentError
          ("Reference header o for iztype " ++ toString iztype_val ++
            " not set."))
      else .ok ()
    else
      .error (.nameError "name val is not defined")
  else
    .error (.sacInvalidContentError ("Invalid iztype: " ++ toString iztype_val))

/-- `validate_sac_content(hf, hi, hs, data, *tests)`: run the requested
validity tests in source order; an empty or unrecognized test list raises
ValueError, a failing test raises per its check. -/
def validate_sac_content (hf : List ℚ) (hi : List ℤ) (hs : List String)
    (data : Option (List ℚ)) (tests : List String) : Except PyErr Unit := do
  let ALL := ["delta", "logicals", "data_hdrs", "enums", "reftime", "reltime"]
  let tests := if tests.contains "all" then ALL else tests
  if tests = [] then
    .error (.valueError "No validation tests specified.")
  else if tests.any (fun t => ¬ ALL.contains t) then
    -- the source's message contains this misspelling
    .error (.valueError "Unrecognized validataion test specified")
  else do
    let _ ← if tests.contains "delta" then deltaCheck hf else .ok ()
    let _ ← if tests.contains "logicals" then logicalsCheck hi else .ok ()
    let _ ← if tests.contains "data_hdrs" then dataHdrsCheck hf data else .ok ()
    let _ ← if tests.contains "enums" then enumsCheck hi else .ok ()
    let _ ← if tests.contains "reftime" then reftimeCheck hi else .ok ()
    let _ ← if tests.contains "reltime" then reltimeCheck hi else .ok ()
    .ok ()

/-- One line of SAC ASCII output, kept structurally: the values it holds and,
for float lines, the numpy `savetxt` format string used. -/
inductive TxtLine where
  | floats (fmt : String) (vals : List ℚ)
  | ints (vals : List ℤ)
  | strs (vals : List String)
  deriving DecidableEq, Repr

/-- The fixed-width float format `%#15.7g` used for the float header and the
full data lines. -/
def gFmt : String := "%#15.7g"

/-- numpy `savetxt`'s default float format `%.18e`, used when no fmt is
passed. -/
def eFmt : String := "%.18e"

/-- Python `l[0:stop]` with a possibly negative stop. -/
def pySliceTo {α : Type} (l : List α) (stop : ℤ) : List α :=
  if stop < 0 then l.take ((l.length : ℤ) + stop).toNat else l.take stop.toNat

/-- Python `l[start:]` with a possibly negative start. -/
def pySliceFrom {α : Type} (l : List α) (start : ℤ) : List α :=
  if start < 0 then l.drop ((l.length : ℤ) + start).toNat else l.drop start.toNat

/-- `np.reshape(l, (rows, cols))` for a flat list: `rows = -1` infers the row
count, any other negative row count or a length mismatch raises ValueError. -/
def npReshape {α : Type} (rows : ℤ) (cols : ℕ) (l : List α) :
    Except PyErr (List (List α)) :=
  if rows = -1 then
    if cols ≠ 0 ∧ l.length % cols = 0 then .ok (chunksOf cols l)
    else .error (.valueError "cannot reshape array")
  else if rows < 0 then .error (.valueError "cannot reshape array")
  else if l.length = rows.toNat * cols ∧ cols ≠ 0 then .ok (chunksOf cols l)
  else .error (.valueError "cannot reshape array")

/-- The 30 header lines of a SAC ASCII file: 14 lines of 5 floats in the
fixed `%#15.7g` format, 8 lines of 5 ints, 8 lines of 3 strings. -/
def headerLines (hf : List ℚ) (hi : List ℤ) (hs : List String) : List TxtLine :=
  (chunksOf 5 hf).map (TxtLine.floats gFmt) ++
  (chunksOf 5 hi).map TxtLine.ints ++
  (chunksOf 3 hs).map TxtLine.strs

/-- `write_sac_ascii(dest, hf, hi, hs, data)`, modelled as the list of text
lines written (the path-versus-stream open/close bookkeeping carries no
content and is elided).  Headers are written via
`np.savetxt(np.reshape(...))`.  With data present: if `hi[9]` (npts) is null
or zero, writing stops after the headers.  Otherwise
`np.savetxt(np.reshape(data[0:5*rows], (rows, 5)), fmt='%#15.7g')` emits the
full lines, and `np.savetxt(f, data[5*rows:], delimiter='\t')` emits the
remainder — savetxt turns a 1-D array into a COLUMN (`np.atleast_2d(X).T`),
so each remaining value lands on its own line in the default `%.18e` format
and the tab delimiter is never used; any failure there becomes a
SacIOError. -/
def write_sac_ascii (hf : List ℚ) (hi : List ℤ) (hs : List String)
    (data : Option (List ℚ)) : Except PyErr (List TxtLine) := do
  let hfRows ← npReshape 14 5 hf
  let hiRows ← npReshape 8 5 hi
  let hsRows ← npReshape 8 3 hs
  let hdr := hfRows.map (TxtLine.floats gFmt) ++ hiRows.map TxtLine.ints ++
    hsRows.map TxtLine.strs
  match data with
  | none => .ok hdr
  | some d =>
    let npts := hi.getD 9 0
    if npts = INULL ∨ npts = 0 then .ok hdr
    else
      let rows : ℤ := Int.fdiv npts 5
      match npReshape rows 5 (pySliceTo d (5 * rows)) with
      | .error _ => .error (.sacIOError "Cannot write trace values")
      | .ok full =>
        .ok (hdr ++ full.map (TxtLine.floats gFmt) ++
          (pySliceFrom d (5 * rows)).map (fun v => TxtLine.floats eFmt [v]))

/-- Split a character list into maximal whitespace-free runs
(Python `str.split()` with no argument). -/
def splitWs (cs : List Char) : List (List Char) :=
  (cs.splitOnP (fun c => c = ' ' ∨ c = '\t')).filter (fun t => t ≠ [])

/-- Tokenize a line as Python `line.split()` does. -/
def tokenize (s : String) : List String :=
  (splitWs s.data).map (fun cs => ⟨cs⟩)

/-- Numeric value of a run of decimal digits. -/
def digitsVal (cs : List Char) : ℕ :=
  cs.foldl (fun a c => 10 * a + (c.toNat - 48)) 0

/-- `int(token)` for a decimal token with optional sign; anything else is a
parse failure. -/
def parseIntStr (s : String) : Option ℤ :=
  let core : List Char → Option ℤ := fun cs =>
    if cs ≠ [] ∧ cs.all Char.isDigit then some (digitsVal cs) else none
  match s.data with
  | '-' :: rest => (core rest).map Neg.neg
  | '+' :: rest => core rest
  | cs => core cs

/-- `float(token)` for the decimal / scientific tokens SAC ASCII files hold:
optional sign, digits with an optional fraction part, optional e-exponent.
When the overall power of ten is nonnegative the value is built purely from
integer arithmetic (keeping it kernel-computable); otherwise via `mkRat`. -/
def parseRat (s : String) : Option ℚ :=
  let digitsPart : List Char → Option (ℤ × ℕ) := fun cs =>
    -- mantissa digits with optional fraction: value and fraction length
    let intPart := cs.takeWhile Char.isDigit
    let rest := cs.dropWhile Char.isDigit
    match rest with
    | [] => if intPart ≠ [] then some ((digitsVal intPart : ℤ), 0) else none
    | '.' :: frac =>
      if frac.all Char.isDigit ∧ (intPart ≠ [] ∨ frac ≠ []) then
        some ((digitsVal (intPart ++ frac) : ℤ), frac.length)
      else none
    | _ => none
  let signed : List Char → Option (ℤ × ℕ) := fun cs =>
    match cs with
    | '-' :: rest => (digitsPart rest).map (fun p => (-p.1, p.2))
    | '+' :: rest => digitsPart rest
    | _ => digitsPart cs
  let expPart : List Char → Option ℤ := fun cs =>
    match cs with
    | '-' :: rest =>
      if rest ≠ [] ∧ rest.all Char.isDigit then some (-(digitsVal rest : ℤ))
      else none
    | '+' :: rest =>
      if rest ≠ [] ∧ rest.all Char.isDigit then some ((digitsVal rest : ℤ))
      else none
    | _ => if cs ≠ [] ∧ cs.all Char.isDigit then some ((digitsVal cs : ℤ))
      else none
  let mant := s.data.takeWhile (fun c => ¬ (c = 'e' ∨ c = 'E'))
  let rest := s.data.dropWhile (fun c => ¬ (c = 'e' ∨ c = 'E'))
  let exp : Option ℤ :=
    match rest with
    | [] => some 0
    | _ :: ecs => expPart ecs
  match signed mant, exp with
  | some (m, fl), some e =>
    let p : ℤ := e - (fl : ℤ)
    some (if 0 ≤ p then ((m * 10 ^ p.toNat : ℤ) : ℚ) else mkRat m (10 ^ (-p).toNat))
  | _, _ => none

/-- `np.array([l.split() for l in ls], dtype=...).ravel()`: every row must
have the same token count (else numpy cannot build a rectangular array) and
every token must parse, and the rows are then flattened in order. -/
def parseTable {α : Type} (ls : List String) (p : String → Option α) :
    Except PyErr (List α) :=
  let rows := ls.map tokenize
  let rect :=
    match rows with
    | [] => true
    | r :: rs => rs.all (fun row => row.length = r.length)
  if rect then
    match (rows.map (fun r => r.mapM p)).mapM id with
    | some parsed => .ok parsed.flatten
    | none => .error (.valueError "could not convert string in table")
  else .error (.valueError "setting an array element with a sequence")

/-- A float array together with its dtype byte-order character. -/
structure QArr where
  order : String
  vals : List ℚ
  deriving DecidableEq, Repr

/-- An int array together with its dtype byte-order character. -/
structure ZArr where
  order : String
  vals : List ℤ
  deriving DecidableEq, Repr

/-- The string-header block of the ASCII reader: starting from the factory
null array, each of the 8 lines at positions 22..29 is cut into three fixed
8-byte fields (`np.fromstring(line, dtype='|S8', count=3)` raises when the
line is shorter than 24 bytes) and stored at slots 3i..3i+2. -/
def parseStrBlock (contents : List String) : Except PyErr (List String) :=
  (List.range 8).foldlM
    (fun (hs : List String) i => do
      let line ← pyGet contents (14 + 8 + i)
      if line.data.length < 24 then
        .error (.valueError "string size must be a multiple of element size")
      else
        .ok (((hs.set (3 * i) (strSlice line 0 8)).set (3 * i + 1)
          (strSlice line 8 16)).set (3 * i + 2) (strSlice line 16 24)))
    initStrVals

/-- `read_sac_ascii(source, headonly)`, over the list of line strings of the
source (terminators already stripped).  The platform native byte order is
passed in to express that the reader never consults it: the float and int
tables are parsed with the hard-coded little-endian dtypes `'<f4'`/`'<i4'`,
the string block is rebuilt from fixed 8-byte cuts of each line, and unless
headonly the remaining lines are parsed as `'<f4'` data whose length must
equal npts (`hi[9]`). -/
def read_sac_ascii (contents : List String) (headonly : Bool)
    (native : String) : Except PyErr (QArr × ZArr × List String × Option QArr) := do
  if contents.length < 14 + 8 + 8 then
    .error (.sacIOError "is not a valid SAC file")
  else do
    let hfv ← parseTable (contents.take 14) parseRat
    let hiv0 ← parseTable ((contents.drop 14).take 8) parseIntStr
    let hiv := hiv0.map wrap32
    let hs ← parseStrBlock contents
    if headonly then
      .ok (⟨"<", hfv⟩, ⟨"<", hiv⟩, hs, none)
    else do
      let dv ← parseTable (contents.drop 30) parseRat
      let npts ← pyGet hiv 9
      if (dv.length : ℤ) ≠ npts then
        .error (.sacIOError "Cannot read all data points")
      else
        .ok (⟨"<", hfv⟩, ⟨"<", hiv⟩, hs, some ⟨"<", dv⟩)

/-- A byte order, as numpy dtype metadata. -/
inductive Endian where
  | little
  | big
  deriving DecidableEq, Repr

/-- `newbyteorder('S')`: the opposite order. -/
def Endian.swap : Endian → Endian
  | .little => .big
  | .big => .little

/-- `sys.byteorder`-style name of an order. -/
def Endian.name : Endian → String
  | .little => "little"
  | .big => "big"

/-- An open binary stream: its full byte content and the current read
position. -/
structure FileStream where
  content : List ℕ
  pos : ℕ
  deriving DecidableEq, Repr

/-- `f.read(n)`: Python returns everything up to EOF for a negative `n`
(as happens when npts is negative), else at most `n` bytes; the position
advances by the number of bytes returned. -/
def FileStream.read (f : FileStream) (n : ℤ) : List ℕ × FileStream :=
  let avail := f.content.drop f.pos
  let bs := if n < 0 then avail else avail.take n.toNat
  (bs, ⟨f.content, f.pos + bs.length⟩)

/-- The source of a binary read: a path (the file's bytes; opening yields a
fresh stream at offset 0 and marks the stream as internally owned) or a
caller-supplied already-open stream. -/
inductive RSource where
  | path (content : List ℕ)
  | stream (s : FileStream)
  deriving DecidableEq, Repr

/-- The stream a read starts from. -/
def RSource.init : RSource → FileStream
  | .path c => ⟨c, 0⟩
  | .stream s => s

/-- Whether `read_sac` opened the stream itself (`is_file_name`). -/
def RSource.isFileName : RSource → Bool
  | .path _ => true
  | .stream _ => false

/-- A header array as `from_buffer` materializes it: the raw 4-byte groups
in file order plus the dtype byte-order tag.  `newbyteorder('S')` swaps the
tag and keeps the bytes, exactly as the source relies on. -/
structure WordArr where
  words : List (List ℕ)
  order : Endian
  deriving DecidableEq, Repr

/-- Reinterpret the same bytes under the swapped byte order. -/
def WordArr.swapOrder (a : WordArr) : WordArr :=
  ⟨a.words, a.order.swap⟩

/-- Signed 32-bit value of one 4-byte group under a byte order. -/
def decodeI32 (w : List ℕ) (e : Endian) : ℤ :=
  let le := if e = .little then w else w.reverse
  let u : ℕ := le.foldr (fun b acc => b + 256 * acc) 0
  if u < 2 ^ 31 then (u : ℤ) else (u : ℤ) - 2 ^ 32

/-- `np.frombuffer(bytes, dtype)` for a 4-byte item size: the buffer length
must be a multiple of the item size. -/
def from_buffer4 (bs : List ℕ) : Except PyErr (List (List ℕ)) :=
  if bs.length % 4 = 0 then .ok (chunksOf 4 bs)
  else .error (.valueError "buffer size must be a multiple of element size")

/-- `np.frombuffer(bytes, '|S8')`: 8-byte string slots. -/
def from_buffer8 (bs : List ℕ) : Except PyErr (List (List ℕ)) :=
  if bs.length % 8 = 0 then .ok (chunksOf 8 bs)
  else .error (.valueError "buffer size must be a multiple of element size")

/-- `is_valid_byteorder(hi)`: the format-version field nvhdr, decoded under
the array's current order, lies strictly between 0 and 20 (an out-of-range
index access on a short array is an IndexError, as in Python). -/
def is_valid_byteorder (hi : WordArr) : Except PyErr Bool := do
  let w ← pyGet hi.words (INTHDRS.indexOf "nvhdr")
  let nvhdr := decodeI32 w hi.order
  .ok (decide (0 < nvhdr ∧ nvhdr < 20))

/-- Read the 632 header bytes: 70 float words, 40 int words, 24 8-byte
string slots, interpreted under the assumed order `e`. -/
def readSacHeader (f : FileStream) (e : Endian) :
    Except PyErr (WordArr × WordArr × List (List ℕ)) × FileStream :=
  let (b1, f1) := f.read (4 * 70)
  match from_buffer4 b1 with
  | .error err => (.error err, f1)
  | .ok hfw =>
    let (b2, f2) := f1.read (4 * 40)
    match from_buffer4 b2 with
    | .error err => (.error err, f2)
    | .ok hiw =>
      let (b3, f3) := f2.read (24 * 8)
      match from_buffer8 b3 with
      | .error err => (.error err, f3)
      | .ok hsw => (.ok (⟨hfw, e⟩, ⟨hiw, e⟩, hsw), f3)

/-- The byte-order resolution step: if the int header fails the nvhdr
validity predicate, a caller-specified order is an error (`SacIOError`), an
unspecified one swaps the dtype interpretation of the already-read float and
int arrays while keeping their bytes. -/
def resolveByteorder (specified : Bool) (boName : String) (hf hi : WordArr) :
    Except PyErr (WordArr × WordArr) := do
  let valid ← is_valid_byteorder hi
  if valid then .ok (hf, hi)
  else if specified then
    .error (.sacIOError ("Incorrect byteorder " ++ boName))
  else
    .ok (hf.swapOrder, hi.swapOrder)

/-- The size-mismatch message of the checksize branch, with the actual and
theoretical sizes formatted in. -/
def sizeMsg (len : ℕ) (th : ℤ) : String :=
  "Actual and theoretical file size are inconsistent.\n" ++
  "Actual/Theoretical: " ++ toString len ++ "/" ++ toString th ++ "\n" ++
  "Check that headers are consistent with time series."

/-- The checksize step: record the position, seek to the end to measure the
total length, seek back, and compare against 632 + 4*npts; with
`checksize=False` nothing at all is done to the stream. -/
def checksizeStage (f : FileStream) (npts : ℤ) (checksize : Bool) :
    Except PyErr Unit × FileStream :=
  if checksize then
    let cur := f.pos
    let fEnd : FileStream := ⟨f.content, f.content.length⟩
    let length := fEnd.pos
    let fBack : FileStream := ⟨fEnd.content, cur⟩
    let th : ℤ := 632 + 4 * npts
    if (length : ℤ) ≠ th then (.error (.sacIOError (sizeMsg length th)), fBack)
    else (.ok (), fBack)
  else (.ok (), f)

instance {ε α : Type} [DecidableEq ε] [DecidableEq α] :
    DecidableEq (Except ε α) := fun a b =>
  match a, b with
  | .error x, .error y =>
    if h : x = y then .isTrue (by rw [h]) else .isFalse (by simp [h])
  | .error _, .ok _ => .isFalse (by simp)
  | .ok _, .error _ => .isFalse (by simp)
  | .ok x, .ok y =>
    if h : x = y then .isTrue (by rw [h]) else .isFalse (by simp [h])

/-- The outcome of `read_sac`: the result (headers, plus the data array
unless headonly), whether `f.close()` was ever called on the stream handle,
and the final stream state. -/
structure ReadSacResult where
  result : Except PyErr (WordArr × WordArr × List (List ℕ) × Option WordArr)
  closed : Bool
  stream : FileStream
  deriving DecidableEq, Repr

/-- Everything `read_sac` does after the header block is in memory and the
byte order is resolved.  Bug-for-bug with the source: the header-length
failure runs `if not is_file_name: f.close()` (closing exactly the
caller-supplied stream), the checksize failure closes nothing, the
short-data failure runs a bare `f.close()`, and only the success path closes
if-and-only-if the stream was internally opened. -/
def continueAfterHeader (hf hi : WordArr) (hs : List (List ℕ))
    (f : FileStream) (headonly checksize : Bool) (is_file_name : Bool) :
    ReadSacResult :=
  if hf.words.length ≠ 70 ∨ hi.words.length ≠ 40 ∨ hs.length ≠ 24 then
    ⟨.error (.sacIOError "Cannot read all header values"), !is_file_name, f⟩
  else
    -- the length check just passed, so the npts word (index 9) is in range
    let npts := decodeI32 (hi.words.getD (INTHDRS.indexOf "npts") []) hi.order
    match checksizeStage f npts checksize with
    | (.error err, f') => ⟨.error err, false, f'⟩
    | (.ok _, f') =>
      if headonly then
        ⟨.ok (hf, hi, hs, none), is_file_name, f'⟩
      else
        let (bs, f'') := f'.read (npts * 4)
        match from_buffer4 bs with
        | .error err => ⟨.error err, false, f''⟩
        | .ok dw =>
          if (dw.length : ℤ) ≠ npts then
            ⟨.error (.sacIOError "Cannot read all data points"), true, f''⟩
          else
            ⟨.ok (hf, hi, hs, some ⟨dw, hi.order⟩), is_file_name, f''⟩

/-- `read_sac(source, headonly, byteorder, checksize)` on a platform whose
native order is `native`: open (a path yields an internally-owned stream at
offset 0), resolve the assumed byte order (defaulting to the platform's),
read and decode the 632 header bytes, run the byte-order resolution, then
hand off to `continueAfterHeader`. -/
def read_sac (source : RSource) (headonly : Bool) (byteorder : Option String)
    (checksize : Bool) (native : Endian) : ReadSacResult :=
  let f0 := source.init
  let is_file_name := source.isFileName
  let specified := byteorder.isSome
  let boName := byteorder.getD native.name
  let e0 : Option Endian :=
    if boName = "little" then some .little
    else if boName = "big" then some .big else none
  match e0 with
  | none =>
    ⟨.error (.valueError "Unrecognized byteorder. Use little or big"), false, f0⟩
  | some e =>
    match readSacHeader f0 e with
    | (.error err, f1) => ⟨.error err, false, f1⟩
    | (.ok (hf0, hi0, hs0), f1) =>
      match resolveByteorder specified boName hf0 hi0 with
      | .error err => ⟨.error err, false, f1⟩
      | .ok (hf, hi) =>
        continueAfterHeader hf hi hs0 f1 headonly checksize is_file_name

/-- The int-header initial value as the spec describes it field-by-field:
null everywhere except the logical (l-prefixed) fields, which are 0, and
lcalda, which is 1. -/
def intInitFun (n : String) : ℤ :=
  if n = "lcalda" then 1 else if startsWithL n then 0 else INULL

/-- The array `init_header_arrays` owes for one recognized kind, per the
claim: null-filled, except logical int fields 0 and lcalda 1. -/
def specHdrArray (byteorder : String) (kind : String) : HdrArray :=
  if kind = "float" then .flt byteorder (List.replicate 70 FNULL)
  else if kind = "int" then .int byteorder (INTHDRS.map intInitFun)
  else .str (List.replicate 24 SNULL)

/-- The null sentinel of the array kind a schema key belongs to. -/
def nullOf (k : String) : HVal :=
  if k ∈ FLOATHDRS then .f FNULL
  else if k ∈ INTHDRS then .i INULL
  else .s SNULL

/-- What the round trip exposes for a key absent from the input mapping:
nothing, except the four logical flags at their factory defaults. -/
def logicalDefault (k : String) : Option HVal :=
  if k = "lcalda" then some (.i 1)
  else if k ∈ (["leven", "lpspol", "lovrok"] : List String) then some (.i 0)
  else none

/-- The value the round trip `dict_to_header_arrays` then
`header_arrays_to_dict (nulls := false)` is expected to expose at key `k`,
for an input mapping within the storage ranges: a present entry survives
unless it equals its kind's null sentinel, an absent key contributes
nothing except the logical-flag defaults. -/
def rtExpected (m : HDict) (k : String) : Option HVal :=
  match m.lookup k with
  | some v => if v = nullOf k then none else some v
  | none => logicalDefault k

/-- Float-slot contents after folding the mapping over a base assignment. -/
def fOver (m : HDict) (g : String → ℚ) (n : String) : ℚ :=
  match m.lookup n with
  | some (.f q) => q
  | _ => g n

/-- Int-slot contents after folding the mapping over a base assignment. -/
def iOver (m : HDict) (g : String → ℤ) (n : String) : ℤ :=
  match m.lookup n with
  | some (.i z) => wrap32 z
  | _ => g n

/-- String-slot contents after folding the mapping over a base assignment
(for keys other than the split event name). -/
def sOver (m : HDict) (g : String → String) (n : String) : String :=
  match m.lookup n with
  | some (.s t) => strTake t 8
  | _ => g n

/-- The 40 raw int-header words of a 632-byte header block. -/
def headerIntWords (c : List ℕ) : List (List ℕ) :=
  chunksOf 4 ((c.drop 280).take 160)

/-- npts as the binary reader decodes it from a header block under order
`e`. -/
def headerNpts (c : List ℕ) (e : Endian) : ℤ :=
  decodeI32 ((headerIntWords c).getD 9 []) e
lemma initIntVals_map : initIntVals = INTHDRS.map intInitFun := by decide

lemma initFold_ok (kinds : List String) (acc : List HdrArray) (bo : String)
    (h : ∀ k ∈ kinds, k ∈ (["float", "int", "str"] : List String)) :
    kinds.foldlM (initStep bo) acc = .ok (acc ++ kinds.map (specHdrArray bo)) := by
  induction kinds generalizing acc with
  | nil => simp [pure, Except.pure]
  | cons k rest ih =>
    have hk := h k (by simp)
    have hr : ∀ x ∈ rest, x ∈ (["float", "int", "str"] : List String) :=
      fun x hx => h x (by simp [hx])
    fin_cases hk <;>
      simp [List.foldlM_cons, initStep, specHdrArray, ih _ hr, bind, Except.bind,
        initIntVals_map, initFloatVals, initStrVals]

/-- C9: For every request of recognized kinds, `init_header_arrays` returns
one array per requested kind in the requested order, filled with that kind's
null sentinel (70 floats / 40 ints / 24 8-byte strings), except that every
logical int field is 0 and lcalda is 1; requesting any unrecognized kind
fails with a ValueError. -/
theorem init_header_arrays_spec :
    (∀ (kinds : List String) (bo : String),
      (∀ k ∈ kinds, k ∈ (["float", "int", "str"] : List String)) →
      init_header_arrays kinds bo = .ok (kinds.map (specHdrArray bo)))
    ∧ (∀ (pre rest : List String) (k : String) (bo : String),
      (∀ x ∈ pre, x ∈ (["float", "int", "str"] : List String)) →
      k ∉ (["float", "int", "str"] : List String) →
      init_header_arrays (pre ++ k :: rest) bo =
        .error (.valueError ("Unrecognized header array type " ++ k))) := by
  constructor
  · intro kinds bo h
    simpa [init_header_arrays] using initFold_ok kinds [] bo h
  · intro pre rest k bo hpre hk
    have h1 : k ≠ "float" := fun h => hk (by simp [h])
    have h2 : k ≠ "int" := fun h => hk (by simp [h])
    have h3 : k ≠ "str" := fun h => hk (by simp [h])
    simp [init_header_arrays, List.foldlM_append, initFold_ok pre [] bo hpre,
      List.foldlM_cons, initStep, h1, h2, h3, bind, Except.bind]

theorem init_header_arrays_spec_witness :
    init_header_arrays ["int", "float"] "<" =
      .ok [HdrArray.int "<" (INTHDRS.map intInitFun),
           HdrArray.flt "<" (List.replicate 70 FNULL)]
    ∧ init_header_arrays ["float", "bogus"] "=" =
      .error (.valueError "Unrecognized header array type bogus") := by
  constructor
  · simpa [specHdrArray] using init_header_arrays_spec.1 ["int", "float"] "<"
      (by decide)
  · simpa using init_header_arrays_spec.2 ["float"] [] "bogus" "="
      (by decide) (by decide)

/-- C3: The claim says the reltime test of `validate_sac_content` checks,
for every valid iztype code, the reference field that code selects. The code
diverges: for a valid iztype other than 9 or 11 (here 12) the selector
variable is never bound and the check raises a NameError instead of testing
the selected field; and for iztype 9 the value compared against the float
null is read from the int header array at the float field's index, so a set
float field b is still reported as not set. Both divergences are exhibited
on concrete header arrays. -/
theorem reltime_check_divergence :
    validate_sac_content ((List.replicate 70 FNULL).set 8 1)
      ((List.replicate 40 INULL).set 17 12) (List.replicate 24 SNULL) none
      ["reltime"] = .error (.nameError "name val is not defined")
    ∧ validate_sac_content ((List.replicate 70 FNULL).set 5 1)
      ((List.replicate 40 INULL).set 17 9) (List.replicate 24 SNULL) none
      ["reltime"] =
      .error (.sacInvalidContentError
        "Reference header b for iztype 9 not set.") := by
  constructor
  · decide
  · decide

set_option maxRecDepth 10000 in
/-- C4: The claim says the binary read closes the stream iff it opened the
stream itself from a path, on every exit path. The code diverges on two
paths: when the header read comes up short, the inverted conditional closes
exactly the caller-supplied stream (and leaves a self-opened file open); and
when the data read comes up short, the stream is closed unconditionally,
caller-supplied or not. The checksize-failure path (shown here for a path
source) indeed closes nothing. All three behaviours are exhibited on
concrete byte streams. -/
theorem read_sac_close_divergence :
    (read_sac (.stream ⟨List.replicate 304 0 ++ [6, 0, 0, 0] ++
        List.replicate 228 0, 0⟩) false none false .little).result =
      .error (.sacIOError "Cannot read all header values")
    ∧ (read_sac (.stream ⟨List.replicate 304 0 ++ [6, 0, 0, 0] ++
        List.replicate 228 0, 0⟩) false none false .little).closed = true
    ∧ (read_sac (.path (List.replicate 304 0 ++ [6, 0, 0, 0] ++
        List.replicate 228 0)) false none false .little).closed = false
    ∧ (read_sac (.path (List.replicate 633 0)) false none true
        .little).result = .error (.sacIOError (sizeMsg 633 632))
    ∧ (read_sac (.path (List.replicate 633 0)) false none true
        .little).closed = false
    ∧ (read_sac (.stream ⟨List.replicate 304 0 ++ [6, 0, 0, 0] ++
        List.replicate 8 0 ++ [5, 0, 0, 0] ++ List.replicate 312 0, 0⟩)
        false none false .little).result =
      .error (.sacIOError "Cannot read all data points")
    ∧ (read_sac (.stream ⟨List.replicate 304 0 ++ [6, 0, 0, 0] ++
        List.replicate 8 0 ++ [5, 0, 0, 0] ++ List.replicate 312 0, 0⟩)
        false none false .little).closed = true := by
  refine ⟨by decide, by decide, by decide, by decide, by decide, by decide,
    by decide⟩

lemma pyGet_lt {α : Type} (l : List α) (i : ℕ) (d : α) (h : i < l.length) :
    pyGet l i = .ok (l.getD i d) := by
  simp [pyGet, List.getElem?_eq_getElem h, List.getD_eq_getElem?_getD]

/-- C5: For every header and non-empty data array, the data_hdrs test of
`validate_sac_content` succeeds exactly when depmin, depmax and depmen equal
the data's min, max and mean, and fails with a SacInvalidContentError on any
inequality; when data is None or empty it fails with a ValueError instead. -/
theorem validate_data_hdrs_spec (hf : List ℚ) (hi : List ℤ) (hs : List String)
    (d : List ℚ) (hlen : 70 ≤ hf.length) (hne : d ≠ []) :
    (validate_sac_content hf hi hs (some d) ["data_hdrs"] = .ok () ↔
      (hf.getD 1 0 = listMin d ∧ hf.getD 2 0 = listMax d ∧
       hf.getD 56 0 = listMean d))
    ∧ (validate_sac_content hf hi hs (some d) ["data_hdrs"] =
        .error (.sacInvalidContentError "Data headers do not match data array.")
        ↔ ¬ (hf.getD 1 0 = listMin d ∧ hf.getD 2 0 = listMax d ∧
          hf.getD 56 0 = listMean d))
    ∧ validate_sac_content hf hi hs none ["data_hdrs"] =
        .error (.valueError dataHdrsNoneMsg)
    ∧ validate_sac_content hf hi hs (some []) ["data_hdrs"] =
        .error (.valueError dataHdrsNoneMsg) := by
  have h1 : pyGet hf 1 = .ok (hf.getD 1 0) := pyGet_lt hf 1 0 (by omega)
  have h2 : pyGet hf 2 = .ok (hf.getD 2 0) := pyGet_lt hf 2 0 (by omega)
  have h56 : pyGet hf 56 = .ok (hf.getD 56 0) := pyGet_lt hf 56 0 (by omega)
  have hidx1 : FLOATHDRS.indexOf "depmin" = 1 := by decide
  have hidx2 : FLOATHDRS.indexOf "depmax" = 2 := by decide
  have hidx56 : FLOATHDRS.indexOf "depmen" = 56 := by decide
  refine ⟨?_, ?_, ?_, ?_⟩ <;>
    simp [validate_sac_content, dataHdrsCheck, hidx1, hidx2, hidx56, h1, h2,
      h56, hne, bind, Except.bind, Except.map] <;>
    split_ifs with hc <;> simp <;> tauto

theorem validate_data_hdrs_spec_witness :
    validate_sac_content (((List.replicate 70 FNULL).set 1 1).set 2 3)
      [] [] (some [1, 3]) ["data_hdrs"] =
      .error (.sacInvalidContentError "Data headers do not match data array.")
    ∧ validate_sac_content (((List.replicate 70 FNULL).set 1 1).set 2 3)
      [] [] none ["data_hdrs"] = .error (.valueError dataHdrsNoneMsg) := by
  have h := validate_data_hdrs_spec
    ((List.replicate 70 FNULL).set 1 1 |>.set 2 3) [] [] [1, 3]
    (by decide) (by decide)
  refine ⟨h.2.1.mpr ?_, h.2.2.1⟩
  intro hc
  have hm : listMean [(1 : ℚ), 3] = 2 := by norm_num [listMean]
  have := hc.2.2
  rw [hm] at this
  revert this
  decide

lemma chunksGo_length {α : Type} (n k : ℕ) (hn : 0 < n) :
    ∀ (fuel : ℕ) (l : List α), l.length = k * n → l.length ≤ fuel →
    (chunksGo fuel n l).length = k := by
  induction k with
  | zero =>
    intro fuel l hl _
    have : l = [] := List.eq_nil_of_length_eq_zero (by omega)
    subst this
    cases fuel <;> rfl
  | succ k ih =>
    intro fuel l hl hf
    have hnl : n ≤ l.length := by
      rw [hl]
      calc n = 1 * n := (one_mul n).symm
        _ ≤ (k + 1) * n := Nat.mul_le_mul_right n (by omega)
    cases fuel with
    | zero => omega
    | succ fuel =>
      cases l with
      | nil => simp at hnl; omega
      | cons a t =>
        have hdl : ((a :: t).drop n).length = k * n := by
          rw [List.length_drop, hl]
          have : (k + 1) * n = k * n + n := by ring
          omega
        have hdf : ((a :: t).drop n).length ≤ fuel := by
          rw [List.length_drop]
          have h1 : (a :: t).length ≤ fuel + 1 := hf
          omega
        simp [chunksGo, ih fuel _ hdl hdf]

lemma chunksOf_length {α : Type} (n k : ℕ) (l : List α) (hn : 0 < n)
    (hl : l.length = k * n) : (chunksOf n l).length = k := by
  have : n ≠ 0 := by omega
  simp [chunksOf, this, chunksGo_length n k hn l.length l hl le_rfl]

lemma npReshape_ok {α : Type} (r c : ℕ) (l : List α) (h : l.length = r * c)
    (hc : c ≠ 0) : npReshape (r : ℤ) c l = .ok (chunksOf c l) := by
  have h1 : (r : ℤ) ≠ -1 := by omega
  have h2 : ¬ ((r : ℤ) < 0) := by omega
  simp [npReshape, h1, h2, h, hc]

/-- C8: For every ASCII write with a data array provided: if npts is the
null sentinel or zero only the 30 header lines are emitted; otherwise
floor(npts/5) full lines of 5 values follow in the fixed-width float header
format. The claim's trailing line diverges from the code: the npts mod 5
remaining values are not written as one tab-delimited line in the header
format, but one value per line in the default %.18e format of np.savetxt
applied to a 1-D array. -/
theorem write_sac_ascii_data_layout (hf : List ℚ) (hi : List ℤ)
    (hs : List String) (d : List ℚ) (n : ℤ)
    (hf70 : hf.length = 70) (hi40 : hi.length = 40) (hs24 : hs.length = 24)
    (hn : hi.getD 9 0 = n) :
    ((n = INULL ∨ n = 0) →
      write_sac_ascii hf hi hs (some d) = .ok (headerLines hf hi hs))
    ∧ (1 ≤ n → (d.length : ℤ) = n →
      write_sac_ascii hf hi hs (some d) =
        .ok (headerLines hf hi hs ++
          (chunksOf 5 (d.take (5 * (n.toNat / 5)))).map (TxtLine.floats gFmt) ++
          (d.drop (5 * (n.toNat / 5))).map (fun v => TxtLine.floats eFmt [v])))
    ∧ (headerLines hf hi hs).length = 30 := by
  replace hn : hi[9]?.getD 0 = n := by
    simpa [List.getD_eq_getElem?_getD] using hn
  have hr1 : npReshape 14 5 hf = .ok (chunksOf 5 hf) :=
    npReshape_ok 14 5 hf (by omega) (by omega)
  have hr2 : npReshape 8 5 hi = .ok (chunksOf 5 hi) :=
    npReshape_ok 8 5 hi (by omega) (by omega)
  have hr3 : npReshape 8 3 hs = .ok (chunksOf 3 hs) :=
    npReshape_ok 8 3 hs (by omega) (by omega)
  refine ⟨?_, ?_, ?_⟩
  · intro hnull
    simp [write_sac_ascii, hr1, hr2, hr3, bind, Except.bind, hn, hnull,
      headerLines]
  · intro hpos hd
    have hnn0 : 0 ≤ n := by omega
    have hnn : ¬ (n = INULL ∨ n = 0) := by
      simp [INULL]
      omega
    have hfd : n.fdiv 5 = ((n.toNat / 5 : ℕ) : ℤ) := by
      rw [Int.ofNat_ediv, Int.toNat_of_nonneg hnn0,
        Int.fdiv_eq_ediv _ (by omega : (0 : ℤ) ≤ 5)]
      norm_num
    have hlen : (d.take (5 * (n.toNat / 5))).length = (n.toNat / 5) * 5 := by
      rw [List.length_take]
      have h1 : d.length = n.toNat := by omega
      have h2 : 5 * (n.toNat / 5) ≤ n.toNat := by
        have := Nat.div_mul_le_self n.toNat 5
        omega
      omega
    have hmax : n ⊔ 0 = n := max_eq_left hnn0
    have h5a : ((5 : ℤ) * (n / 5)).toNat = 5 * (n.toNat / 5) := by omega
    have hcond : ¬ ((5 : ℤ) * (n / 5) < 0) := by omega
    have hr4 : npReshape (n / 5) 5 (d.take (5 * (n.toNat / 5))) =
        .ok (chunksOf 5 (d.take (5 * (n.toNat / 5)))) := by
      have hc : ((n.toNat / 5 : ℕ) : ℤ) = n / 5 := by omega
      rw [← hc]
      exact npReshape_ok _ 5 _ hlen (by omega)
    simp [write_sac_ascii, hr1, hr2, hr3, bind, Except.bind, hn, hnn,
      hfd, hmax, pySliceTo, pySliceFrom, hcond, h5a, hr4, headerLines]
  · have c1 : (chunksOf 5 hf).length = 14 :=
      chunksOf_length 5 14 hf (by omega) (by omega)
    have c2 : (chunksOf 5 hi).length = 8 :=
      chunksOf_length 5 8 hi (by omega) (by omega)
    have c3 : (chunksOf 3 hs).length = 8 :=
      chunksOf_length 3 8 hs (by omega) (by omega)
    simp [headerLines, c1, c2, c3]

set_option maxRecDepth 4000 in
theorem write_sac_ascii_counterexample :
    write_sac_ascii (List.replicate 70 0) ((List.replicate 40 0).set 9 7)
      (List.replicate 24 SNULL) (some [1, 2, 3, 4, 5, 6, 7]) =
    .ok (headerLines (List.replicate 70 0) ((List.replicate 40 0).set 9 7)
        (List.replicate 24 SNULL) ++
      [TxtLine.floats gFmt [1, 2, 3, 4, 5], TxtLine.floats eFmt [6],
       TxtLine.floats eFmt [7]]) := by decide

theorem write_sac_ascii_data_layout_witness :
    write_sac_ascii (List.replicate 70 0) (List.replicate 40 INULL)
      (List.replicate 24 SNULL) (some [1, 2]) =
      .ok (headerLines (List.replicate 70 0) (List.replicate 40 INULL)
        (List.replicate 24 SNULL))
    ∧ (headerLines (List.replicate 70 0) (List.replicate 40 INULL)
        (List.replicate 24 SNULL)).length = 30 := by
  have h := write_sac_ascii_data_layout (List.replicate 70 0)
    (List.replicate 40 INULL) (List.replicate 24 SNULL) [1, 2] INULL
    (by decide) (by decide) (by decide) (by decide)
  exact ⟨h.1 (Or.inl rfl), h.2.2⟩

lemma exceptBind_ok {ε α β : Type} {x : Except ε α} {f : α → Except ε β}
    {b : β} (h : (x >>= f) = .ok b) : ∃ a, x = .ok a ∧ f a = .ok b := by
  cases x with
  | error e => simp [Bind.bind, Except.bind] at h
  | ok a => exact ⟨a, rfl, by simpa [Bind.bind, Except.bind] using h⟩

/-- C10: Every successful `read_sac_ascii` call returns float and int
header arrays tagged little-endian, and, when headonly is false, a data
array tagged little-endian as well, regardless of the platform's native
byte order. -/
theorem read_sac_ascii_little_endian (contents : List String) (headonly : Bool)
    (native : String) (hf : QArr) (hi : ZArr) (hs : List String)
    (d : Option QArr)
    (h : read_sac_ascii contents headonly native = .ok (hf, hi, hs, d)) :
    hf.order = "<" ∧ hi.order = "<" ∧
    (headonly = true → d = none) ∧
    (headonly = false → ∃ arr, d = some arr ∧ arr.order = "<") := by
  simp only [read_sac_ascii] at h
  split at h
  · simp at h
  · obtain ⟨hfv, hfp, h⟩ := exceptBind_ok h
    obtain ⟨hiv0, hip, h⟩ := exceptBind_ok h
    obtain ⟨hsv, hsp, h⟩ := exceptBind_ok h
    cases headonly with
    | true =>
      simp only [if_pos] at h
      have h2 := h
      simp only [Except.ok.injEq, Prod.mk.injEq] at h2
      obtain ⟨rfl, rfl, rfl, rfl⟩ := h2
      simp
    | false =>
      simp only [Bool.false_eq_true, if_false] at h
      obtain ⟨dv, hdp, h⟩ := exceptBind_ok h
      obtain ⟨npts, hnp, h⟩ := exceptBind_ok h
      by_cases hq : ((dv.length : ℤ) = npts)
      · simp only [hq] at h
        have h2 := h
        simp only [ne_eq, not_true_eq_false, if_false, ite_false,
          Except.ok.injEq, Prod.mk.injEq] at h2
        obtain ⟨rfl, rfl, rfl, rfl⟩ := by simpa using h2
        simp
      · simp [hq] at h

set_option maxRecDepth 4000 in
theorem read_sac_ascii_little_endian_witness :
    read_sac_ascii (List.replicate 14 "0 0 0 0 0" ++ ["0 0 0 0 0", "0 0 0 0 2"]
        ++ List.replicate 6 "0 0 0 0 0"
        ++ List.replicate 8 "AAAAAAAABBBBBBBBCCCCCCCC" ++ ["1 2"]) false "big"
      = .ok (⟨"<", List.replicate 70 0⟩, ⟨"<", (List.replicate 40 0).set 9 2⟩,
        (List.replicate 8 (["AAAAAAAA", "BBBBBBBB", "CCCCCCCC"] : List String)).flatten,
        some ⟨"<", [1, 2]⟩)
    ∧ (QArr.mk "<" (List.replicate 70 0)).order = "<"
    ∧ (ZArr.mk "<" ((List.replicate 40 0).set 9 2)).order = "<" := by
  have h : read_sac_ascii (List.replicate 14 "0 0 0 0 0"
      ++ ["0 0 0 0 0", "0 0 0 0 2"] ++ List.replicate 6 "0 0 0 0 0"
      ++ List.replicate 8 "AAAAAAAABBBBBBBBCCCCCCCC" ++ ["1 2"]) false "big"
      = .ok (⟨"<", List.replicate 70 0⟩, ⟨"<", (List.replicate 40 0).set 9 2⟩,
        (List.replicate 8 (["AAAAAAAA", "BBBBBBBB", "CCCCCCCC"] : List String)).flatten,
        some ⟨"<", [1, 2]⟩) := by decide
  exact ⟨h, (read_sac_ascii_little_endian _ false "big" _ _ _ _ h).1,
    (read_sac_ascii_little_endian _ false "big" _ _ _ _ h).2.1⟩

/-- C1: When the int header decoded under the assumed byte order fails the
nvhdr validity predicate: if the caller specified a byteorder, `read_sac`
fails with a SacIOError naming the incorrect byteorder; if the caller did
not, `read_sac` reinterprets the already-read header bytes under the
swapped byte order, without re-reading from the stream, and proceeds. -/
theorem read_sac_byteorder_resolution :
    (∀ (src : RSource) (ho cs : Bool) (native : Endian) (bo : String)
      (hf0 hi0 : WordArr) (hs0 : List (List ℕ)) (f1 : FileStream),
      (bo = "little" ∨ bo = "big") →
      readSacHeader src.init (if bo = "little" then .little else .big) =
        (.ok (hf0, hi0, hs0), f1) →
      is_valid_byteorder hi0 = .ok false →
      read_sac src ho (some bo) cs native =
        ⟨.error (.sacIOError ("Incorrect byteorder " ++ bo)), false, f1⟩)
    ∧ (∀ (src : RSource) (ho cs : Bool) (native : Endian)
      (hf0 hi0 : WordArr) (hs0 : List (List ℕ)) (f1 : FileStream),
      readSacHeader src.init native = (.ok (hf0, hi0, hs0), f1) →
      is_valid_byteorder hi0 = .ok false →
      read_sac src ho none cs native =
        continueAfterHeader hf0.swapOrder hi0.swapOrder hs0 f1 ho cs
          src.isFileName) := by
  constructor
  · intro src ho cs native bo hf0 hi0 hs0 f1 hbo hh hv
    rcases hbo with rfl | rfl <;>
      simp_all [read_sac, resolveByteorder, bind, Except.bind]
  · intro src ho cs native hf0 hi0 hs0 f1 hh hv
    cases native <;>
      simp_all [read_sac, resolveByteorder, bind, Except.bind, Endian.name]

set_option maxRecDepth 4000 in
theorem read_sac_byteorder_resolution_witness :
    read_sac (.stream ⟨List.replicate 632 0, 0⟩) false (some "little") false
      .little =
      ⟨.error (.sacIOError "Incorrect byteorder little"), false,
        ⟨List.replicate 632 0, 632⟩⟩
    ∧ read_sac (.stream ⟨List.replicate 632 0, 0⟩) false none false .little =
      continueAfterHeader ⟨List.replicate 70 [0, 0, 0, 0], .big⟩
        ⟨List.replicate 40 [0, 0, 0, 0], .big⟩
        (List.replicate 24 (List.replicate 8 0)) ⟨List.replicate 632 0, 632⟩
        false false false := by
  constructor
  · exact read_sac_byteorder_resolution.1 (.stream ⟨List.replicate 632 0, 0⟩)
      false false .little "little" ⟨List.replicate 70 [0, 0, 0, 0], .little⟩
      ⟨List.replicate 40 [0, 0, 0, 0], .little⟩
      (List.replicate 24 (List.replicate 8 0)) ⟨List.replicate 632 0, 632⟩
      (Or.inl rfl) (by decide) (by decide)
  · have h := read_sac_byteorder_resolution.2 (.stream ⟨List.replicate 632 0, 0⟩)
      false false .little ⟨List.replicate 70 [0, 0, 0, 0], .little⟩
      ⟨List.replicate 40 [0, 0, 0, 0], .little⟩
      (List.replicate 24 (List.replicate 8 0)) ⟨List.replicate 632 0, 632⟩
      (by decide) (by decide)
    simpa [WordArr.swapOrder, Endian.swap] using h

lemma readSacHeader_full (c : List ℕ) (e : Endian) (hc : 632 ≤ c.length) :
    readSacHeader ⟨c, 0⟩ e =
      (.ok (⟨chunksOf 4 (c.take 280), e⟩, ⟨headerIntWords c, e⟩,
        chunksOf 8 ((c.drop 440).take 192)), ⟨c, 632⟩) := by
  have l1 : (c.take 280).length = 280 := by
    rw [List.length_take]
    omega
  have l2 : ((c.drop 280).take 160).length = 160 := by
    rw [List.length_take, List.length_drop]
    omega
  have l3 : (((c.drop 280).drop 160).take 192).length = 192 := by
    rw [List.length_take, List.length_drop, List.length_drop]
    omega
  have hd : (c.drop 280).drop 160 = c.drop 440 := by
    rw [List.drop_drop]
  have hmin : 192 ⊓ (c.length - 440) = 192 := by omega
  simp [readSacHeader, FileStream.read, from_buffer4, from_buffer8,
    headerIntWords, l1, l2, l3, hd, hmin]

/-- C7: With checksize true, the size stage of `read_sac` fails with a
SacIOError exactly when the stream's total length differs from 632 + 4*npts
with npts taken from the int header, and the stream position after the
measurement equals the position before it; with checksize false no
comparison is performed and the stream is untouched. -/
theorem read_sac_checksize_spec :
    (∀ (f : FileStream) (npts : ℤ),
      checksizeStage f npts true =
        (if (f.content.length : ℤ) = 632 + 4 * npts then .ok ()
         else .error (.sacIOError
           (sizeMsg f.content.length (632 + 4 * npts))), f))
    ∧ (∀ (f : FileStream) (npts : ℤ), checksizeStage f npts false = (.ok (), f))
    ∧ (∀ (c : List ℕ) (src : RSource) (ho : Bool) (native : Endian),
      src.init = ⟨c, 0⟩ → 632 ≤ c.length →
      is_valid_byteorder ⟨headerIntWords c, native⟩ = .ok true →
      ((read_sac src ho none true native).result =
        .error (.sacIOError (sizeMsg c.length
          (632 + 4 * headerNpts c native))) ↔
       (c.length : ℤ) ≠ 632 + 4 * headerNpts c native)) := by
  refine ⟨?_, ?_, ?_⟩
  · intro f npts
    by_cases h : (f.content.length : ℤ) = 632 + 4 * npts <;>
      simp [checksizeStage, h]
  · intro f npts
    rfl
  · intro c src ho native h0 hc hv
    have hcz : (632 : ℤ) ≤ (c.length : ℤ) := by exact_mod_cast hc
    have hh := readSacHeader_full c native hc
    have hlf : (chunksOf 4 (c.take 280)).length = 70 :=
      chunksOf_length 4 70 _ (by omega) (by rw [List.length_take]; omega)
    have hli : (headerIntWords c).length = 40 := by
      unfold headerIntWords
      exact chunksOf_length 4 40 _ (by omega)
        (by rw [List.length_take, List.length_drop]; omega)
    have hls : (chunksOf 8 ((c.drop 440).take 192)).length = 24 :=
      chunksOf_length 8 24 _ (by omega)
        (by rw [List.length_take, List.length_drop]; omega)
    have hrs : read_sac src ho none true native =
        continueAfterHeader ⟨chunksOf 4 (c.take 280), native⟩
          ⟨headerIntWords c, native⟩ (chunksOf 8 ((c.drop 440).take 192))
          ⟨c, 632⟩ ho true src.isFileName := by
      cases native <;>
        simp [read_sac, h0, hh, resolveByteorder, hv, bind, Except.bind,
          Endian.name]
    have hidx : INTHDRS.indexOf "npts" = 9 := by decide
    have hget : pyGet (headerIntWords c) 9 =
        .ok ((headerIntWords c).getD 9 []) := pyGet_lt _ 9 [] (by omega)
    have h9 : 9 < (headerIntWords c).length := by omega
    have hnp : decodeI32 (headerIntWords c)[9] native =
        headerNpts c native := by
      rw [headerNpts]
      congr 1
      rw [List.getD_eq_getElem?_getD, List.getElem?_eq_getElem h9]
      rfl
    by_cases hq : (c.length : ℤ) = 632 + 4 * headerNpts c native
    · have hnn : 0 ≤ headerNpts c native := by omega
      have hno : ¬ (headerNpts c native * 4 < 0) := by omega
      have hcs : checksizeStage ⟨c, 632⟩ (headerNpts c native) true =
          (.ok (), ⟨c, 632⟩) := by
        simp [checksizeStage, hq.symm]
      have hbs : ((c.drop 632).take (headerNpts c native * 4).toNat).length =
          (headerNpts c native).toNat * 4 := by
        rw [List.length_take, List.length_drop]
        omega
      have hdw : (chunksOf 4 ((c.drop 632).take
          (headerNpts c native * 4).toNat)).length =
          (headerNpts c native).toNat :=
        chunksOf_length 4 _ _ (by omega) hbs
      have hfb : from_buffer4 ((c.drop 632).take
          (headerNpts c native * 4).toNat) =
          .ok (chunksOf 4 ((c.drop 632).take
            (headerNpts c native * 4).toNat)) := by
        unfold from_buffer4
        rw [hbs]
        simp
      have hdl : ((chunksOf 4 ((c.drop 632).take
          (headerNpts c native * 4).toNat)).length : ℤ) =
          headerNpts c native := by
        rw [hdw]
        omega
      rw [hrs]
      cases ho <;>
        simp [continueAfterHeader, hlf, hli, hls, hidx, hget, hnp, hcs,
          FileStream.read, hno, hfb, hdl, bind, Except.bind, hq]
    · have hcs : checksizeStage ⟨c, 632⟩ (headerNpts c native) true =
          (.error (.sacIOError (sizeMsg c.length
            (632 + 4 * headerNpts c native))), ⟨c, 632⟩) := by
        have : ((⟨c, 632⟩ : FileStream).content.length : ℤ) ≠
            632 + 4 * headerNpts c native := hq
        simp [checksizeStage, this]
      rw [hrs]
      simp [continueAfterHeader, hlf, hli, hls, hidx, hget, hnp, hcs, hq]

set_option maxRecDepth 10000 in
theorem read_sac_checksize_spec_witness :
    checksizeStage ⟨List.replicate 633 0, 632⟩ 0 false =
      (.ok (), ⟨List.replicate 633 0, 632⟩)
    ∧ checksizeStage ⟨List.replicate 633 0, 632⟩ 0 true =
      (.error (.sacIOError (sizeMsg 633 632)), ⟨List.replicate 633 0, 632⟩)
    ∧ (read_sac (.path (List.replicate 304 0 ++ [1, 0, 0, 0] ++
        List.replicate 325 0)) false none true .little).result =
      .error (.sacIOError (sizeMsg 633 632)) := by
  refine ⟨read_sac_checksize_spec.2.1 _ 0, ?_, ?_⟩
  · have h := read_sac_checksize_spec.1 ⟨List.replicate 633 0, 632⟩ 0
    simpa using h
  · have hnp : headerNpts (List.replicate 304 0 ++ [1, 0, 0, 0] ++
        List.replicate 325 0) .little = 0 := by decide
    have h := (read_sac_checksize_spec.2.2
      (List.replicate 304 0 ++ [1, 0, 0, 0] ++ List.replicate 325 0)
      (.path (List.replicate 304 0 ++ [1, 0, 0, 0] ++ List.replicate 325 0))
      false .little rfl (by decide) (by decide)).mpr (by rw [hnp]; decide)
    simpa [hnp] using h

lemma map_set_indexOf {α : Type} (l : List String) (f : String → α)
    (k : String) (v : α) (hnd : l.Nodup) (hk : k ∈ l) :
    (l.map f).set (l.indexOf k) v = l.map (fun n => if n = k then v else f n) := by
  induction l with
  | nil => simp at hk
  | cons b t ih =>
    by_cases hb : b = k
    · subst hb
      rw [List.indexOf_cons_self]
      simp only [List.map_cons, List.set_cons_zero, if_pos rfl]
      congr 1
      refine (List.map_congr_left ?_).symm
      intro n hn
      have : n ≠ b := fun h => (List.nodup_cons.mp hnd).1 (h ▸ hn)
      simp [this]
    · rw [List.indexOf_cons_ne _ hb]
      have hk' : k ∈ t := by
        cases hk with
        | head => exact absurd rfl hb
        | tail _ h => exact h
      simp only [List.map_cons, List.set_cons_succ]
      rw [ih (List.nodup_cons.mp hnd).2 hk']
      simp [hb]

lemma zip_self_map {α : Type} (l : List String) (f : String → α) :
    l.zip (l.map f) = l.map (fun a => (a, f a)) := by
  induction l with
  | nil => rfl
  | cons b t ih => simp [ih]

lemma lookup_append {β : Type} (l₁ l₂ : List (String × β)) (k : String) :
    (l₁ ++ l₂).lookup k = ((l₁.lookup k).orElse (fun _ => l₂.lookup k)) := by
  induction l₁ with
  | nil => simp [List.lookup]
  | cons p t ih =>
    by_cases hp : k = p.1
    · have hb : (k == p.1) = true := beq_iff_eq.mpr hp
      simp [List.lookup, hb, ih, Option.orElse]
    · have hb : (k == p.1) = false := beq_eq_false_iff_ne.mpr hp
      simp [List.lookup, hb, ih, Option.orElse]

lemma lookup_sect {α : Type} [DecidableEq α] (l : List String)
    (g : String → α) (nullv : α) (mk : α → HVal) (k : String)
    (hnd : l.Nodup) :
    (((l.map (fun n => (n, g n))).filter (fun p => p.2 ≠ nullv)).map
      (fun p => (p.1, mk p.2))).lookup k =
    if k ∈ l ∧ g k ≠ nullv then some (mk (g k)) else none := by
  induction l with
  | nil => simp [List.lookup]
  | cons b t ih =>
    have hnd2 := (List.nodup_cons.mp hnd).2
    have hbt := (List.nodup_cons.mp hnd).1
    have ih2 := ih hnd2
    simp only [ne_eq] at ih2 ⊢
    by_cases hgb : g b = nullv
    · rw [List.map_cons, List.filter_cons]
      simp only [hgb, not_true_eq_false, decide_False, Bool.false_eq_true,
        if_false]
      rw [ih2]
      by_cases hkb : k = b
      · subst hkb
        simp [hbt, hgb]
      · simp [hkb]
    · rw [List.map_cons, List.filter_cons]
      simp only [hgb, not_false_eq_true, decide_True, if_true]
      rw [List.map_cons]
      by_cases hkb : k = b
      · subst hkb
        simp [List.lookup, hgb]
      · have hb2 : (k == b) = false := beq_eq_false_iff_ne.mpr hkb
        simp only [List.lookup, hb2]
        rw [ih2]
        simp [hkb]

lemma lookup_filter_ne {β : Type} (d : List (String × β)) (key : String) :
    (d.filter (fun p => p.1 ≠ key)).lookup key = none := by
  induction d with
  | nil => simp
  | cons p t ih =>
    rw [List.filter_cons]
    by_cases hp : p.1 = key
    · simp only [hp, ne_eq, not_true_eq_false, decide_False, cond_false]
      exact ih
    · simp only [ne_eq, hp, not_false_eq_true, decide_True, cond_true]
      have hb : (key == p.1) = false := beq_eq_false_iff_ne.mpr (Ne.symm hp)
      simp [List.lookup, hb, ih, ne_comm]

lemma mergeKevnm_lookup_kevnm2 (d : HDict) :
    (mergeKevnm d).lookup "kevnm2" = none := by
  unfold mergeKevnm
  cases h2 : d.lookup "kevnm2" with
  | none => exact h2
  | some v2 =>
    cases h1 : d.lookup "kevnm" with
    | none =>
      rw [lookup_append, lookup_filter_ne]
      simp [List.lookup]
    | some v1 =>
      exact lookup_filter_ne _ _

lemma mergeKevnm_of_no_kevnm2 (d : HDict) (h : d.lookup "kevnm2" = none) :
    mergeKevnm d = d := by
  unfold mergeKevnm
  rw [h]

lemma floathdrs_nodup : FLOATHDRS.Nodup := by decide

lemma inthdrs_nodup : INTHDRS.Nodup := by decide

lemma strhdrs_nodup : STRHDRS.Nodup := by decide

lemma float_not_int : ∀ x ∈ FLOATHDRS, x ∉ INTHDRS := by decide

lemma float_not_str : ∀ x ∈ FLOATHDRS, x ∉ STRHDRS := by decide

lemma int_not_str : ∀ x ∈ INTHDRS, x ∉ STRHDRS := by decide

lemma lookup_none_of_not_mem {β : Type} (m : List (String × β)) (k : String)
    (h : k ∉ m.map Prod.fst) : m.lookup k = none := by
  induction m with
  | nil => rfl
  | cons p t ih =>
    simp only [List.map_cons, List.mem_cons, not_or] at h
    have hb : (k == p.1) = false := beq_eq_false_iff_ne.mpr h.1
    simp [List.lookup, hb, ih h.2]

lemma lookup_cons_ne {β : Type} (m : List (String × β)) (k n : String)
    (v : β) (h : n ≠ k) : ((k, v) :: m).lookup n = m.lookup n := by
  have hb : (n == k) = false := beq_eq_false_iff_ne.mpr h
  simp [List.lookup, hb]

lemma lookup_cons_self {β : Type} (m : List (String × β)) (k : String)
    (v : β) : ((k, v) :: m).lookup k = some v := by
  simp [List.lookup]

lemma fold_assign (m : HDict) :
    ∀ (gf : String → ℚ) (gi : String → ℤ) (gs : String → String),
    (m.map Prod.fst).Nodup →
    (∀ p ∈ m,
      (p.1 ∈ FLOATHDRS ∧ ∃ q, p.2 = HVal.f q) ∨
      (p.1 ∈ INTHDRS ∧ ∃ z, p.2 = HVal.i z) ∨
      (p.1 ∈ STRHDRS ∧ p.1 ≠ "kevnm" ∧ ∃ t, p.2 = HVal.s t)) →
    m.foldlM assignEntry (FLOATHDRS.map gf, INTHDRS.map gi, STRHDRS.map gs) =
      .ok (FLOATHDRS.map (fOver m gf), INTHDRS.map (iOver m gi),
        STRHDRS.map (sOver m gs)) := by
  induction m with
  | nil =>
    intro gf gi gs _ _
    simp [fOver, iOver, sOver, List.lookup, pure, Except.pure]
  | cons p m ih =>
    intro gf gi gs hnd htyped
    obtain ⟨k, v⟩ := p
    have hnd2 : (m.map Prod.fst).Nodup := (List.nodup_cons.mp hnd).2
    have hkm : k ∉ m.map Prod.fst := (List.nodup_cons.mp hnd).1
    have hlnone : m.lookup k = none := lookup_none_of_not_mem m k hkm
    have htyped2 : ∀ p ∈ m,
        (p.1 ∈ FLOATHDRS ∧ ∃ q, p.2 = HVal.f q) ∨
        (p.1 ∈ INTHDRS ∧ ∃ z, p.2 = HVal.i z) ∨
        (p.1 ∈ STRHDRS ∧ p.1 ≠ "kevnm" ∧ ∃ t, p.2 = HVal.s t) :=
      fun q hq => htyped q (List.mem_cons_of_mem _ hq)
    rcases htyped (k, v) (List.mem_cons_self _ _) with
      ⟨hkF, q, rfl⟩ | ⟨hkI, z, rfl⟩ | ⟨hkS, hknk, t, rfl⟩
    · have hstep : assignEntry
          (FLOATHDRS.map gf, INTHDRS.map gi, STRHDRS.map gs) (k, .f q) =
          .ok ((FLOATHDRS.map gf).set (FLOATHDRS.indexOf k) q,
            INTHDRS.map gi, STRHDRS.map gs) := by
        simp [assignEntry, hkF, asFloatVal, Except.map]
      have hset := map_set_indexOf FLOATHDRS gf k q floathdrs_nodup hkF
      have e1 : FLOATHDRS.map (fOver m (fun n => if n = k then q else gf n)) =
          FLOATHDRS.map (fOver ((k, HVal.f q) :: m) gf) := by
        refine List.map_congr_left ?_
        intro n _
        by_cases hnk : n = k
        · subst hnk
          simp [fOver, lookup_cons_self, hlnone]
        · simp only [fOver, lookup_cons_ne m k n _ hnk]
          cases m.lookup n with
          | none => simp [hnk]
          | some w => cases w <;> simp [hnk]
      have e2 : INTHDRS.map (iOver m gi) =
          INTHDRS.map (iOver ((k, HVal.f q) :: m) gi) := by
        refine List.map_congr_left ?_
        intro n hn
        have hnk : n ≠ k := fun h => float_not_int k hkF (h ▸ hn)
        simp only [iOver, lookup_cons_ne m k n _ hnk]
      have e3 : STRHDRS.map (sOver m gs) =
          STRHDRS.map (sOver ((k, HVal.f q) :: m) gs) := by
        refine List.map_congr_left ?_
        intro n hn
        have hnk : n ≠ k := fun h => float_not_str k hkF (h ▸ hn)
        simp only [sOver, lookup_cons_ne m k n _ hnk]
      rw [List.foldlM_cons, hstep]
      simp only [bind, Except.bind, hset]
      rw [ih (fun n => if n = k then q else gf n) gi gs hnd2 htyped2, e1, e2,
        e3]
    · have hkF : k ∉ FLOATHDRS := fun h => float_not_int k h hkI
      have hstep : assignEntry
          (FLOATHDRS.map gf, INTHDRS.map gi, STRHDRS.map gs) (k, .i z) =
          .ok (FLOATHDRS.map gf,
            (INTHDRS.map gi).set (INTHDRS.indexOf k) (wrap32 z),
            STRHDRS.map gs) := by
        simp [assignEntry, hkF, hkI, asIntVal, Except.map]
      have hset := map_set_indexOf INTHDRS gi k (wrap32 z) inthdrs_nodup hkI
      have e1 : FLOATHDRS.map (fOver m gf) =
          FLOATHDRS.map (fOver ((k, HVal.i z) :: m) gf) := by
        refine List.map_congr_left ?_
        intro n hn
        have hnk : n ≠ k := fun h => hkF (h ▸ hn)
        simp only [fOver, lookup_cons_ne m k n _ hnk]
      have e2 : INTHDRS.map (iOver m (fun n => if n = k then wrap32 z
          else gi n)) = INTHDRS.map (iOver ((k, HVal.i z) :: m) gi) := by
        refine List.map_congr_left ?_
        intro n _
        by_cases hnk : n = k
        · subst hnk
          simp [iOver, lookup_cons_self, hlnone]
        · simp only [iOver, lookup_cons_ne m k n _ hnk]
          cases m.lookup n with
          | none => simp [hnk]
          | some w => cases w <;> simp [hnk]
      have e3 : STRHDRS.map (sOver m gs) =
          STRHDRS.map (sOver ((k, HVal.i z) :: m) gs) := by
        refine List.map_congr_left ?_
        intro n hn
        have hnk : n ≠ k := fun h => int_not_str k hkI (h ▸ hn)
        simp only [sOver, lookup_cons_ne m k n _ hnk]
      rw [List.foldlM_cons, hstep]
      simp only [bind, Except.bind, hset]
      rw [ih gf (fun n => if n = k then wrap32 z else gi n) gs hnd2 htyped2,
        e1, e2, e3]
    · have hkF : k ∉ FLOATHDRS := fun h => float_not_str k h hkS
      have hkI : k ∉ INTHDRS := fun h => int_not_str k h hkS
      have hstep : assignEntry
          (FLOATHDRS.map gf, INTHDRS.map gi, STRHDRS.map gs) (k, .s t) =
          .ok (FLOATHDRS.map gf, INTHDRS.map gi,
            (STRHDRS.map gs).set (STRHDRS.indexOf k) (strTake t 8)) := by
        simp [assignEntry, hkF, hkI, hkS, hknk, asStrVal, Except.map]
      have hset := map_set_indexOf STRHDRS gs k (strTake t 8) strhdrs_nodup
        hkS
      have e1 : FLOATHDRS.map (fOver m gf) =
          FLOATHDRS.map (fOver ((k, HVal.s t) :: m) gf) := by
        refine List.map_congr_left ?_
        intro n hn
        have hnk : n ≠ k := fun h => hkF (h ▸ hn)
        simp only [fOver, lookup_cons_ne m k n _ hnk]
      have e2 : INTHDRS.map (iOver m gi) =
          INTHDRS.map (iOver ((k, HVal.s t) :: m) gi) := by
        refine List.map_congr_left ?_
        intro n hn
        have hnk : n ≠ k := fun h => hkI (h ▸ hn)
        simp only [iOver, lookup_cons_ne m k n _ hnk]
      have e3 : STRHDRS.map (sOver m (fun n => if n = k then strTake t 8
          else gs n)) = STRHDRS.map (sOver ((k, HVal.s t) :: m) gs) := by
        refine List.map_congr_left ?_
        intro n _
        by_cases hnk : n = k
        · subst hnk
          simp [sOver, lookup_cons_self, hlnone]
        · simp only [sOver, lookup_cons_ne m k n _ hnk]
          cases m.lookup n with
          | none => simp [hnk]
          | some w => cases w <;> simp [hnk]
      rw [List.foldlM_cons, hstep]
      simp only [bind, Except.bind, hset]
      rw [ih gf gi (fun n => if n = k then strTake t 8 else gs n) hnd2
        htyped2, e1, e2, e3]

lemma mem_of_lookup {β : Type} (m : List (String × β)) (k : String) (v : β)
    (h : m.lookup k = some v) : (k, v) ∈ m := by
  induction m with
  | nil => simp [List.lookup] at h
  | cons p t ih =>
    obtain ⟨a, b⟩ := p
    by_cases hp : k = a
    · subst hp
      simp only [List.lookup, beq_self_eq_true] at h
      rw [Option.some.injEq] at h
      subst h
      exact List.mem_cons_self _ _
    · have hb : (k == a) = false := beq_eq_false_iff_ne.mpr hp
      simp only [List.lookup, hb] at h
      exact List.mem_cons_of_mem _ (ih h)

lemma kevnm2_not_float : "kevnm2" ∉ FLOATHDRS := by decide

lemma kevnm2_not_int : "kevnm2" ∉ INTHDRS := by decide

lemma int_default_eq : ∀ k ∈ INTHDRS,
    (if intInitFun k = INULL then (none : Option HVal)
     else some (.i (intInitFun k))) = logicalDefault k := by decide

lemma wrap32_eq (z : ℤ) (h1 : -(2 ^ 31) ≤ z) (h2 : z < 2 ^ 31) :
    wrap32 z = z := by
  unfold wrap32
  omega

lemma strTake_eq (t : String) (h : t.data.length ≤ 8) : strTake t 8 = t := by
  unfold strTake
  rw [List.take_of_length_le h]

lemma logicalDefault_none (k : String) (hkI : k ∉ INTHDRS) :
    logicalDefault k = none := by
  have h1 : k ≠ "lcalda" := fun h => hkI (h ▸ (by decide))
  have h2 : k ∉ (["leven", "lpspol", "lovrok"] : List String) := by
    intro h
    fin_cases h <;> exact hkI (by decide)
  simp [logicalDefault, h1, h2]

/-- C2: For a mapping with schema keys and in-range values,
`dict_to_header_arrays` followed by `header_arrays_to_dict` with nulls
false returns the subset of the original mapping whose values are not the
null sentinel of their kind — except that, contrary to the claim's "no
extra keys", every logical int field absent from the input surfaces with
its nonnull default (0, and 1 for lcalda), as `rtExpected` records. Keys
holding their kind's null sentinel are dropped, all other keys survive
with their value (ints wrapped to 32 bits), and no other key appears. -/
theorem dict_roundtrip_nonnull (m : HDict)
    (hnd : (m.map Prod.fst).Nodup)
    (htyped : ∀ p ∈ m,
      (p.1 ∈ FLOATHDRS ∧ ∃ q, p.2 = HVal.f q) ∨
      (p.1 ∈ INTHDRS ∧ ∃ z, p.2 = HVal.i z ∧ -(2 ^ 31) ≤ z ∧ z < 2 ^ 31) ∨
      (p.1 ∈ STRHDRS ∧ p.1 ≠ "kevnm" ∧ p.1 ≠ "kevnm2" ∧
        ∃ t, p.2 = HVal.s t ∧ t.data.length ≤ 8)) :
    ∃ hf hi hs, dict_to_header_arrays (some m) "=" = .ok (hf, hi, hs) ∧
      ∀ k, (header_arrays_to_dict hf hi hs false).lookup k = rtExpected m k := by
  have htypedW : ∀ p ∈ m,
      (p.1 ∈ FLOATHDRS ∧ ∃ q, p.2 = HVal.f q) ∨
      (p.1 ∈ INTHDRS ∧ ∃ z, p.2 = HVal.i z) ∨
      (p.1 ∈ STRHDRS ∧ p.1 ≠ "kevnm" ∧ ∃ t, p.2 = HVal.s t) := by
    intro p hp
    rcases htyped p hp with ⟨h1, q, h2⟩ | ⟨h1, z, h2, _⟩ | ⟨h1, h2, _, t, h3, _⟩
    · exact Or.inl ⟨h1, q, h2⟩
    · exact Or.inr (Or.inl ⟨h1, z, h2⟩)
    · exact Or.inr (Or.inr ⟨h1, h2, t, h3⟩)
  have hbf : initFloatVals = FLOATHDRS.map (fun _ => FNULL) := by decide
  have hbs : initStrVals = STRHDRS.map (fun _ => SNULL) := by decide
  have hfold := fold_assign m (fun _ => FNULL) intInitFun (fun _ => SNULL)
    hnd htypedW
  have hdta : dict_to_header_arrays (some m) "=" =
      .ok (FLOATHDRS.map (fOver m (fun _ => FNULL)),
        INTHDRS.map (iOver m intInitFun),
        STRHDRS.map (sOver m (fun _ => SNULL))) := by
    unfold dict_to_header_arrays
    rw [hbf, initIntVals_map, hbs]
    exact hfold
  refine ⟨_, _, _, hdta, ?_⟩
  intro k
  have hnok2 : m.lookup "kevnm2" = none := by
    cases hl : m.lookup "kevnm2" with
    | none => rfl
    | some v =>
      rcases htyped _ (mem_of_lookup m _ v hl) with ⟨h1, _⟩ | ⟨h1, _⟩ |
        ⟨_, _, h2, _⟩
      · exact absurd h1 kevnm2_not_float
      · exact absurd h1 kevnm2_not_int
      · exact absurd rfl h2
  have hF := fun k => lookup_sect FLOATHDRS (fOver m (fun _ => FNULL)) FNULL
    HVal.f k floathdrs_nodup
  have hI := fun k => lookup_sect INTHDRS (iOver m intInitFun) INULL
    HVal.i k inthdrs_nodup
  have hS := fun k => lookup_sect STRHDRS (sOver m (fun _ => SNULL)) SNULL
    HVal.s k strhdrs_nodup
  unfold header_arrays_to_dict
  simp only [Bool.false_eq_true, if_false, zip_self_map]
  have hno2 : (((FLOATHDRS.map (fun n => (n, fOver m (fun _ => FNULL) n))).filter
        (fun p => p.2 ≠ FNULL)).map (fun p => (p.1, HVal.f p.2)) ++
      ((INTHDRS.map (fun n => (n, iOver m intInitFun n))).filter
        (fun p => p.2 ≠ INULL)).map (fun p => (p.1, HVal.i p.2)) ++
      ((STRHDRS.map (fun n => (n, sOver m (fun _ => SNULL) n))).filter
        (fun p => p.2 ≠ SNULL)).map
        (fun p => (p.1, HVal.s p.2))).lookup "kevnm2" = none := by
    rw [lookup_append, lookup_append, hF, hI, hS]
    have hsv : sOver m (fun _ => SNULL) "kevnm2" = SNULL := by
      simp [sOver, hnok2]
    simp [kevnm2_not_float, kevnm2_not_int, hsv]
  rw [mergeKevnm_of_no_kevnm2 _ hno2, lookup_append, lookup_append, hF, hI,
    hS]
  by_cases hkF : k ∈ FLOATHDRS
  · have hkI : k ∉ INTHDRS := float_not_int k hkF
    have hkS : k ∉ STRHDRS := float_not_str k hkF
    have hld : logicalDefault k = none := logicalDefault_none k hkI
    cases hm : m.lookup k with
    | none =>
      have hfv : fOver m (fun _ => FNULL) k = FNULL := by simp [fOver, hm]
      simp [rtExpected, hm, hfv, hkI, hkS, hld, Option.orElse]
    | some v =>
      rcases htyped _ (mem_of_lookup m _ v hm) with ⟨_, q, rfl⟩ |
        ⟨h1, _⟩ | ⟨h1, _⟩
      · have hfv : fOver m (fun _ => FNULL) k = q := by simp [fOver, hm]
        have hnull : nullOf k = .f FNULL := by simp [nullOf, hkF]
        by_cases hq : q = FNULL
        · subst hq
          simp [rtExpected, hm, hfv, hkF, hkI, hkS, hnull, Option.orElse, hld]
        · simp [rtExpected, hm, hfv, hq, hkF, hkI, hkS, hnull, Option.orElse]
      · exact absurd h1 hkI
      · exact absurd h1 hkS
  · by_cases hkI : k ∈ INTHDRS
    · have hkS : k ∉ STRHDRS := int_not_str k hkI
      have hnull : nullOf k = .i INULL := by simp [nullOf, hkF, hkI]
      cases hm : m.lookup k with
      | none =>
        have hiv : iOver m intInitFun k = intInitFun k := by simp [iOver, hm]
        have hdef := int_default_eq k hkI
        by_cases hz : intInitFun k = INULL
        · simp only [hz, if_pos rfl] at hdef
          simp [rtExpected, hm, hiv, hz, hkF, hkI, hkS, ← hdef, Option.orElse]
        · simp only [hz, if_neg hz] at hdef
          simp [rtExpected, hm, hiv, hz, hkF, hkI, hkS, ← hdef, Option.orElse]
      | some v =>
        rcases htyped _ (mem_of_lookup m _ v hm) with ⟨h1, _⟩ |
          ⟨_, z, rfl, hz1, hz2⟩ | ⟨h1, _⟩
        · exact absurd h1 hkF
        · have hiv : iOver m intInitFun k = z := by
            simp [iOver, hm, wrap32_eq z hz1 hz2]
          by_cases hz : z = INULL
          · subst hz
            simp [rtExpected, hm, hiv, hkF, hkI, hkS, hnull, Option.orElse]
          · simp [rtExpected, hm, hiv, hz, hkF, hkI, hkS, hnull,
              Option.orElse]
        · exact absurd h1 hkS
    · -- k not in float/int schemas
      have hld : logicalDefault k = none := logicalDefault_none k hkI
      by_cases hkS : k ∈ STRHDRS
      · have hnull : nullOf k = .s SNULL := by simp [nullOf, hkF, hkI]
        cases hm : m.lookup k with
        | none =>
          have hsv : sOver m (fun _ => SNULL) k = SNULL := by
            simp [sOver, hm]
          simp [rtExpected, hm, hsv, hkF, hkI, hkS, hld, Option.orElse]
        | some v =>
          rcases htyped _ (mem_of_lookup m _ v hm) with ⟨h1, _⟩ |
            ⟨h1, _⟩ | ⟨_, _, _, t, rfl, hlen⟩
          · exact absurd h1 hkF
          · exact absurd h1 hkI
          · have hsv : sOver m (fun _ => SNULL) k = t := by
              simp [sOver, hm, strTake_eq t hlen]
            by_cases ht : t = SNULL
            · subst ht
              simp [rtExpected, hm, hsv, hkF, hkI, hkS, hnull, Option.orElse,
                hld]
            · simp [rtExpected, hm, hsv, ht, hkF, hkI, hkS, hnull,
                Option.orElse]
      · -- k in no schema: absent everywhere
        have hm : m.lookup k = none := by
          cases hl : m.lookup k with
          | none => rfl
          | some v =>
            rcases htyped _ (mem_of_lookup m _ v hl) with ⟨h1, _⟩ |
              ⟨h1, _⟩ | ⟨h1, _⟩
            · exact absurd h1 hkF
            · exact absurd h1 hkI
            · exact absurd h1 hkS
        simp [rtExpected, hm, hkF, hkI, hkS, hld, Option.orElse]

lemma lookup_filter_other {β : Type} (d : List (String × β))
    (key key2 : String) (h : key ≠ key2) :
    (d.filter (fun p => p.1 ≠ key2)).lookup key = d.lookup key := by
  induction d with
  | nil => simp
  | cons p t ih =>
    rw [List.filter_cons]
    by_cases hp : p.1 = key2
    · have hb : (key == p.1) = false :=
        beq_eq_false_iff_ne.mpr (by rw [hp]; exact h)
      have hb2 : (key == key2) = false := beq_eq_false_iff_ne.mpr h
      simp only [hp, ne_eq, not_true_eq_false, decide_False, Bool.false_eq_true,
        if_false, ih, List.lookup, hb, hb2]
    · simp only [ne_eq, decide_not] at ih
      simp only [ne_eq, hp, not_false_eq_true, decide_True, if_true]
      by_cases hk : key = p.1
      · have hb : (key == p.1) = true := beq_iff_eq.mpr hk
        simp [List.lookup, hb]
      · have hb : (key == p.1) = false := beq_eq_false_iff_ne.mpr hk
        simp [List.lookup, hb, ih]

lemma lookup_map_update (d : HDict) (w : HVal) (k : String) :
    (d.map (fun p => if p.1 = k then (k, w) else p)).lookup k =
      (d.lookup k).map (fun _ => w) := by
  induction d with
  | nil => simp
  | cons p t ih =>
    by_cases hp : p.1 = k
    · simp only [List.map_cons, if_pos hp]
      have hb : (k == k) = true := beq_self_eq_true k
      have hb2 : (k == p.1) = true := beq_iff_eq.mpr hp.symm
      simp [List.lookup, hb, hb2]
    · simp only [List.map_cons, if_neg hp]
      have hb : (k == p.1) = false := beq_eq_false_iff_ne.mpr
        (fun h => hp h.symm)
      simp [List.lookup, hb, ih]

lemma pad_of_full (s : String) (h : s.data.length = 8) :
    padRightTo s 8 = s := by
  unfold padRightTo
  rw [h]
  simp

lemma kevnm_roundtrip_core (name : String)
    (hA : padRightTo (strTake name 8) 8 ≠ SNULL)
    (hB : padRightTo (strSlice name 8 16) 8 ≠ SNULL) :
    ∃ d, roundTripDict [("kevnm", HVal.s name)] = .ok d ∧
      d.lookup "kevnm" = some (.s ⟨(padRightTo (strTake name 8) 8).data ++
        (padRightTo (strSlice name 8 16) 8).data⟩) ∧
      d.lookup "kevnm2" = none := by
  have hkf : ¬ ("kevnm" ∈ FLOATHDRS) := by decide
  have hki : ¬ ("kevnm" ∈ INTHDRS) := by decide
  have hks : ("kevnm" ∈ STRHDRS) := by decide
  have hd : dict_to_header_arrays (some [("kevnm", HVal.s name)]) "=" =
      .ok (initFloatVals, initIntVals,
        (initStrVals.set 1 (padRightTo (strTake name 8) 8)).set 2
          (padRightTo (strSlice name 8 16) 8)) := by
    simp [dict_to_header_arrays, assignEntry, asStrVal, Except.map, bind,
      Except.bind, pure, Except.pure, hkf, hki, hks]
  have hsform : ((initStrVals.set 1 (padRightTo (strTake name 8) 8)).set 2
        (padRightTo (strSlice name 8 16) 8)) =
      STRHDRS.map (fun n => if n = "kevnm2" then
        padRightTo (strSlice name 8 16) 8
        else if n = "kevnm" then padRightTo (strTake name 8) 8
        else SNULL) := by
    rfl
  have hbf : initFloatVals = FLOATHDRS.map (fun _ => FNULL) := by decide
  have hgsA : (fun n => if n = "kevnm2" then padRightTo (strSlice name 8 16) 8
      else if n = "kevnm" then padRightTo (strTake name 8) 8
      else SNULL) "kevnm" = padRightTo (strTake name 8) 8 := by simp
  have hgsB : (fun n => if n = "kevnm2" then padRightTo (strSlice name 8 16) 8
      else if n = "kevnm" then padRightTo (strTake name 8) 8
      else SNULL) "kevnm2" = padRightTo (strSlice name 8 16) 8 := by simp
  have hrt : roundTripDict [("kevnm", HVal.s name)] =
      .ok (header_arrays_to_dict initFloatVals initIntVals
        ((initStrVals.set 1 (padRightTo (strTake name 8) 8)).set 2
          (padRightTo (strSlice name 8 16) 8)) false) := by
    unfold roundTripDict
    rw [hd]
    rfl
  refine ⟨_, hrt, ?_, ?_⟩
  swap
  · unfold header_arrays_to_dict
    exact mergeKevnm_lookup_kevnm2 _
  unfold header_arrays_to_dict
  rw [hsform, hbf, initIntVals_map]
  simp only [Bool.false_eq_true, if_false, zip_self_map]
  have hF := fun k => lookup_sect FLOATHDRS (fun _ => FNULL) FNULL
    HVal.f k floathdrs_nodup
  have hI := fun k => lookup_sect INTHDRS intInitFun INULL
    HVal.i k inthdrs_nodup
  have hS := fun k => lookup_sect STRHDRS (fun n => if n = "kevnm2" then
    padRightTo (strSlice name 8 16) 8
    else if n = "kevnm" then padRightTo (strTake name 8) 8
    else SNULL) SNULL HVal.s k strhdrs_nodup
  have hlookA : ((((FLOATHDRS.map (fun n => (n, (fun _ => FNULL) n))).filter
        (fun p => p.2 ≠ FNULL)).map (fun p => (p.1, HVal.f p.2))) ++
      (((INTHDRS.map (fun n => (n, intInitFun n))).filter
        (fun p => p.2 ≠ INULL)).map (fun p => (p.1, HVal.i p.2))) ++
      (((STRHDRS.map (fun n => (n, (fun n => if n = "kevnm2" then
        padRightTo (strSlice name 8 16) 8
        else if n = "kevnm" then padRightTo (strTake name 8) 8
        else SNULL) n))).filter (fun p => p.2 ≠ SNULL)).map
        (fun p => (p.1, HVal.s p.2)))).lookup "kevnm" =
      some (.s (padRightTo (strTake name 8) 8)) := by
    rw [lookup_append, lookup_append, hF, hI, hS]
    simp only [hgsA]
    have h1 : ¬ ("kevnm" ∈ FLOATHDRS ∧ FNULL ≠ FNULL) := by simp
    have h2 : ¬ ("kevnm" ∈ INTHDRS ∧ intInitFun "kevnm" ≠ INULL) := by
      simp [hki]
    simp [h1, h2, hks, hA, Option.orElse, hki, hkf]
  have hlookB : ((((FLOATHDRS.map (fun n => (n, (fun _ => FNULL) n))).filter
        (fun p => p.2 ≠ FNULL)).map (fun p => (p.1, HVal.f p.2))) ++
      (((INTHDRS.map (fun n => (n, intInitFun n))).filter
        (fun p => p.2 ≠ INULL)).map (fun p => (p.1, HVal.i p.2))) ++
      (((STRHDRS.map (fun n => (n, (fun n => if n = "kevnm2" then
        padRightTo (strSlice name 8 16) 8
        else if n = "kevnm" then padRightTo (strTake name 8) 8
        else SNULL) n))).filter (fun p => p.2 ≠ SNULL)).map
        (fun p => (p.1, HVal.s p.2)))).lookup "kevnm2" =
      some (.s (padRightTo (strSlice name 8 16) 8)) := by
    rw [lookup_append, lookup_append, hF, hI, hS]
    simp only [hgsB]
    simp [kevnm2_not_float, kevnm2_not_int, (by decide : "kevnm2" ∈ STRHDRS),
      hB, Option.orElse]
  unfold mergeKevnm
  rw [hlookB, hlookA]
  rw [lookup_filter_other _ "kevnm" "kevnm2" (by decide)]
  rw [lookup_map_update]
  rw [hlookA]
  rfl

/-- C6: A 16-character event name (neither half the null sentinel)
round-trips through the dictionary converters unchanged, and the secondary
name slot kevnm2 is never exposed as a key. The claim's 8-or-fewer case
diverges from the code: a short name does not come back identical but
padded to 16 characters, because the writer splits the formatted 16-byte
field into two 8-byte slots and the reader concatenates both, the second
being all spaces. -/
theorem kevnm_name_roundtrip :
    (∀ name : String, name.data.length = 16 →
      strTake name 8 ≠ SNULL → strSlice name 8 16 ≠ SNULL →
      ∃ d, roundTripDict [("kevnm", HVal.s name)] = .ok d ∧
        d.lookup "kevnm" = some (.s name) ∧ d.lookup "kevnm2" = none) ∧
    (∀ name : String, name.data.length ≤ 8 → padRightTo name 8 ≠ SNULL →
      ∃ d, roundTripDict [("kevnm", HVal.s name)] = .ok d ∧
        d.lookup "kevnm" = some (.s (padRightTo name 16)) ∧
        d.lookup "kevnm2" = none) ∧
    (∀ hf hi hs nulls,
      (header_arrays_to_dict hf hi hs nulls).lookup "kevnm2" = none) := by
  refine ⟨?_, ?_, ?_⟩
  · intro name hlen hA hB
    have h1 : (strTake name 8).data.length = 8 := by
      show (name.data.take 8).length = 8
      rw [List.length_take, hlen]
      decide
    have h2 : (strSlice name 8 16).data.length = 8 := by
      show ((name.data.take 16).drop 8).length = 8
      rw [List.length_drop, List.length_take, hlen]
      decide
    have e1 : padRightTo (strTake name 8) 8 = strTake name 8 :=
      pad_of_full _ h1
    have e2 : padRightTo (strSlice name 8 16) 8 = strSlice name 8 16 :=
      pad_of_full _ h2
    obtain ⟨d, hd, hk, hk2⟩ := kevnm_roundtrip_core name
      (by rw [e1]; exact hA) (by rw [e2]; exact hB)
    refine ⟨d, hd, ?_, hk2⟩
    rw [hk, e1, e2]
    have h16 : name.data.take 16 = name.data :=
      List.take_of_length_le (by omega)
    have hjoin : (strTake name 8).data ++ (strSlice name 8 16).data =
        name.data := by
      simp only [strTake, strSlice, h16]
      exact List.take_append_drop 8 name.data
    cases name with
    | mk l =>
      simp only [Option.some.injEq, HVal.s.injEq]
      exact congrArg String.mk hjoin
  · intro name hlen hpad
    have hT : strTake name 8 = name := strTake_eq name hlen
    have hS : strSlice name 8 16 = "" := by
      unfold strSlice
      rw [List.take_of_length_le (by omega), List.drop_eq_nil_of_le hlen]
    have hB : padRightTo (strSlice name 8 16) 8 ≠ SNULL := by
      rw [hS]
      decide
    obtain ⟨d, hd, hk, hk2⟩ := kevnm_roundtrip_core name
      (by rw [hT]; exact hpad) hB
    refine ⟨d, hd, ?_, hk2⟩
    rw [hk, hT, hS]
    have hsum : (8 - name.data.length) + 8 = 16 - name.data.length := by
      omega
    simp only [Option.some.injEq, HVal.s.injEq, padRightTo]
    apply congrArg String.mk
    simp only [List.nil_append, List.length_nil, Nat.sub_zero,
      List.append_assoc]
    rw [← List.replicate_add, hsum]
  · intro hf hi hs nulls
    unfold header_arrays_to_dict
    exact mergeKevnm_lookup_kevnm2 _

set_option maxRecDepth 4000 in
theorem kevnm_roundtrip_counterexample :
    (roundTripDict [("kevnm", HVal.s "ABC")]).map
        (fun d => d.lookup "kevnm") =
      .ok (some (.s "ABC             ")) ∧
    "ABC             " ≠ "ABC" := by
  decide

theorem kevnm_name_roundtrip_witness :
    (∃ d, roundTripDict [("kevnm", HVal.s "ABCDEFGHIJKLMNOP")] = .ok d ∧
      d.lookup "kevnm" = some (.s "ABCDEFGHIJKLMNOP") ∧
      d.lookup "kevnm2" = none) ∧
    (∃ d, roundTripDict [("kevnm", HVal.s "AB")] = .ok d ∧
      d.lookup "kevnm" = some (.s (padRightTo "AB" 16)) ∧
      d.lookup "kevnm2" = none) :=
  ⟨kevnm_name_roundtrip.1 "ABCDEFGHIJKLMNOP" (by decide) (by decide)
      (by decide),
    kevnm_name_roundtrip.2.1 "AB" (by decide) (by decide)⟩

set_option maxRecDepth 4000 in
theorem dict_roundtrip_counterexample :
    (roundTripDict []).map (fun d => d.lookup "leven") =
      .ok (some (.i 0)) ∧
    (roundTripDict []).map (fun d => d.lookup "lcalda") =
      .ok (some (.i 1)) ∧
    ([] : HDict).lookup "leven" = none ∧
    ([] : HDict).lookup "lcalda" = none := by
  decide

theorem dict_roundtrip_nonnull_witness :
    ∃ hf hi hs,
      dict_to_header_arrays
        (some [("delta", HVal.f 1), ("norid", HVal.i 3),
          ("kstnm", HVal.s "ANMO")]) "=" = .ok (hf, hi, hs) ∧
      ∀ k, (header_arrays_to_dict hf hi hs false).lookup k =
        rtExpected [("delta", HVal.f 1), ("norid", HVal.i 3),
          ("kstnm", HVal.s "ANMO")] k :=
  dict_roundtrip_nonnull _ (by decide)
    (by
      intro p hp
      simp only [List.mem_cons, List.not_mem_nil, or_false] at hp
      rcases hp with rfl | rfl | rfl
      · exact Or.inl ⟨by decide, 1, rfl⟩
      · exact Or.inr (Or.inl ⟨by decide, 3, rfl, by decide, by decide⟩)
      · exact Or.inr (Or.inr ⟨by decide, by decide, by decide, "ANMO", rfl,
          by decide⟩))
